import Mathlib

/-!
Shallow embedding of `smartmon_exporter.py`, a Prometheus exporter that runs
`smartctl` per storage device, parses its JSON output and republishes selected
fields as metrics.

Modelling conventions:
* JSON values are the inductive `Json`; Python numbers (ints and floats alike)
  are modelled as exact rationals.
* Python exceptions (KeyError, TypeError, IndexError, ValueError,
  json.JSONDecodeError, subprocess failures) are modelled uniformly as `none`
  in the `Option` monad: the source catches no exception, so any raised
  exception aborts the whole collection pass.
* The external `smartctl` binary is a `World`: a function from the flag list
  to the parsed JSON of its stdout (`none` = the output fails to parse).
* Metric families are values; the Python code mutates family objects in
  place, which is modelled by threading a `CollectState` through the pass.
  On an exception the partially mutated local families are discarded by the
  caller, which the all-or-nothing `Option` threading reproduces.
-/

/-- A parsed JSON value (the result of `json.loads`). Objects keep key order,
as Python dicts do. -/
inductive Json where
  | null : Json
  | bool : Bool → Json
  | num : ℚ → Json
  | str : String → Json
  | arr : List Json → Json
  | obj : List (String × Json) → Json

/-- First-match lookup in an object's key/value list (Python dict lookup;
`json.loads` keeps the last duplicate key, so keys are effectively unique). -/
def slookup : List (String × Json) → String → Option Json
  | [], _ => none
  | (k, v) :: rest, key => if k = key then some v else slookup rest key

/-- `operator.getitem(d, k)` for a string key `k`: succeeds only on a dict
that has the key; on anything else Python raises (TypeError / KeyError). -/
def getitem (d : Json) (k : String) : Option Json :=
  match d with
  | .obj kvs => slookup kvs k
  | _ => none

/-- Python's `k in d` membership test for a dict `d`. In the source this is
only reached after a successful string `getitem` on `d`, hence `d` is a dict. -/
def hasKey (d : Json) (k : String) : Bool :=
  match d with
  | .obj kvs => (slookup kvs k).isSome
  | _ => false

/-- Iterating a JSON value as a Python list. Iterating a non-list (dict of
string keys, string of characters) would raise on the first element's use in
the source, modelled as immediate failure. -/
def asArr : Json → Option (List Json)
  | .arr xs => some xs
  | _ => none

/-- A JSON value used where Python requires `str` (a subprocess argument). -/
def asStr : Json → Option String
  | .str s => some s
  | _ => none

/-- A JSON value used where Python's `'{:x}'.format` requires an integer
(floats and non-numbers raise ValueError/TypeError; `bool` is an `int`
subtype in Python). -/
def asInt : Json → Option ℤ
  | .num q => if q.den = 1 then some q.num else none
  | .bool b => some (cond b 1 0)
  | _ => none

/-- A JSON value used as a metric sample value. Python's prometheus client
stores the value and coerces with `float` at exposition time; a non-numeric
value is modelled as failure (`bool` coerces to 1/0). -/
def asNum : Json → Option ℚ
  | .num q => some q
  | .bool b => some (cond b 1 0)
  | _ => none

/-- `dig(data, path)`: successive `operator.getitem` along `path`, as the
`while` loop popping the front of the path. `dig` only reads `data`. -/
def dig (data : Json) (path : List String) : Option Json :=
  match path with
  | [] => some data
  | k :: p =>
    match getitem data k with
    | some d => dig d p
    | none => none

/-- Split a character list at every whitespace character (keeping empty
pieces). -/
def wsSplit : List Char → List (List Char)
  | [] => [[]]
  | c :: cs =>
    let r := wsSplit cs
    if c.isWhitespace then [] :: r
    else
      match r with
      | [] => [[c]]
      | h :: t => (c :: h) :: t

/-- Python `str.split()` with no argument: split on whitespace runs,
discarding empty pieces. -/
def pySplit (s : String) : List String :=
  ((wsSplit s.toList).map (fun cs => String.mk cs)).filter (fun p => p ≠ "")

/-- Value of a digit string (digits already validated). -/
def digitsToNat (ds : List Char) : ℕ :=
  ds.foldl (fun a c => a * 10 + (c.toNat - 48)) 0

/-- Python `float(s)` on the decimal forms `[+-]?digits[.digits]` /
`[+-]?digits.` / `[+-]?.digits` that occur in `smartctl` raw strings
(exponent and inf/nan forms do not occur there and are modelled as failure).
The value is the exact rational the literal denotes. -/
def parseDecimal (s : String) : Option ℚ :=
  let cs := s.toList
  let sign : Bool := match cs with
    | '-' :: _ => true
    | _ => false
  let cs₁ := match cs with
    | '-' :: rest => rest
    | '+' :: rest => rest
    | _ => cs
  let intPart := cs₁.takeWhile Char.isDigit
  let rest := cs₁.dropWhile Char.isDigit
  match rest with
  | [] =>
    if intPart = [] then none
    else some ((cond sign (-1) 1 : ℚ) * digitsToNat intPart)
  | '.' :: frac =>
    if frac.all Char.isDigit ∧ (intPart ≠ [] ∨ frac ≠ []) then
      some ((cond sign (-1) 1 : ℚ) *
        ((digitsToNat intPart : ℚ) + (digitsToNat frac : ℚ) / (10 ^ frac.length)))
    else none
  | _ => none

/-- Python `int(s)` on a string: optional surrounding whitespace, optional
sign, digits. -/
def parseIntStr (s : String) : Option ℤ :=
  let cs := (s.toList.dropWhile Char.isWhitespace).reverse
  let cs := (cs.dropWhile Char.isWhitespace).reverse
  let sign : Bool := match cs with
    | '-' :: _ => true
    | _ => false
  let cs₁ := match cs with
    | '-' :: rest => rest
    | '+' :: rest => rest
    | _ => cs
  if cs₁ ≠ [] ∧ cs₁.all Char.isDigit then
    some ((cond sign (-1) 1 : ℤ) * digitsToNat cs₁)
  else none

/-- Truncation toward zero, as Python `int` on a float. -/
def ratTrunc (q : ℚ) : ℤ := if q < 0 then ⌈q⌉ else ⌊q⌋

/-- Python's `int(x)` applied to a JSON value: `True`/`False` become 1/0,
numbers truncate toward zero, strings parse as integers, anything else
raises. -/
def pyInt : Json → Option ℚ
  | .bool b => some (cond b 1 0)
  | .num q => some ((ratTrunc q : ℤ) : ℚ)
  | .str s => (parseIntStr s).map (fun i => (i : ℚ))
  | _ => none

/-- Lowercase hexadecimal digits of `n` (Python `'{:x}'.format`). -/
def natToHex (n : ℕ) : String := String.mk (Nat.toDigits 16 n)

/-- Zero-pad `s` on the left to width `w`. -/
def padZero (w : ℕ) (s : String) : String :=
  if s.length ≥ w then s else String.mk (List.replicate (w - s.length) '0') ++ s

/-- Python `'{:0wx}'.format(i)`: lowercase hex, zero-padded to total width
`w`, the sign counting toward the width. -/
def intToHexPad (w : ℕ) (i : ℤ) : String :=
  if i < 0 then "-" ++ padZero (w - 1) (natToHex i.natAbs)
  else padZero w (natToHex i.natAbs)

/-- The wwn string `'{:x} {:06x} {:09x}'.format(naa, oui, id)`. -/
def fmtWwn (naa oui idc : ℤ) : String :=
  intToHexPad 0 naa ++ " " ++ intToHexPad 6 oui ++ " " ++ intToHexPad 9 idc

/-- Kind of a numeric metric family (`GaugeMetricFamily` / `CounterMetricFamily`). -/
inductive MetricKind where
  | gauge : MetricKind
  | counter : MetricKind
  deriving DecidableEq

/-- The per-field transforms appearing in the mapping tables, defunctionalized:
each constructor is one of the Python callables stored in a table. -/
inductive Transform where
  /-- the builtin `int` (row of `gen_metrics`) -/
  | int : Transform
  /-- the default `lambda x: x` / `identity` -/
  | id : Transform
  /-- `lambda x: 100-x` (attribute 190) -/
  | sub100 : Transform
  /-- `lambda x: float(x.split()[0])` (attribute 194) -/
  | parseRawTemp : Transform
  /-- `lambda x: x/100` (NVMe spare/used ratios) -/
  | div100 : Transform
  /-- `lambda x: x*1000*512` (NVMe data units to bytes) -/
  | mul512000 : Transform
  deriving DecidableEq

/-- Applying a transform to the looked-up JSON value. -/
def Transform.apply : Transform → Json → Option ℚ
  | .int, j => pyInt j
  | .id, j => asNum j
  | .sub100, j => (asNum j).map (fun x => 100 - x)
  | .parseRawTemp, j =>
    match j with
    | .str s =>
      match (pySplit s).head? with
      | some tok => parseDecimal tok
      | none => none
    | _ => none
  | .div100, j => (asNum j).map (fun x => x / 100)
  | .mul512000, j => (asNum j).map (fun x => x * 1000 * 512)

/-- A `GaugeMetricFamily` / `CounterMetricFamily` object: name, kind, help,
label names, and the list of samples added so far — each sample a label-value
list paired with the numeric value. -/
structure NumFamily where
  name : String
  kind : MetricKind
  help : String
  labelNames : List String
  samples : List (List String × ℚ)
  deriving DecidableEq

/-- `m.add_metric(labels, value)` appends one sample. -/
def NumFamily.addMetric (m : NumFamily) (ls : List String) (v : ℚ) : NumFamily :=
  { m with samples := m.samples ++ [(ls, v)] }

/-- An `InfoMetricFamily` object: each sample is a sample name, a label
dictionary and the fixed value 1. -/
structure InfoFamily where
  name : String
  help : String
  samples : List (String × List (String × Json) × ℚ)

/-- `m.add_sample(name, labels, value)` appends one info sample. -/
def InfoFamily.addSample (m : InfoFamily) (n : String) (ls : List (String × Json))
    (v : ℚ) : InfoFamily :=
  { m with samples := m.samples ++ [(n, ls, v)] }

/-- `InfoMetricFamily(name, help, value)`: constructing with a value dict adds
one sample named `name + '_info'` with value 1. -/
def mkInfoFamilyWith (n help : String) (ls : List (String × Json)) : InfoFamily :=
  { name := n, help := help, samples := [(n ++ "_info", ls, 1)] }

/-- `gen_metrics()`: the one general S.M.A.R.T. metric, looked up at
`('smart_status', 'passed')` and transformed by `int`. -/
def gen_metrics : List (NumFamily × List String × Transform) :=
  [({ name := "smartmon_smart_healthy", kind := .gauge,
      help := "Whether the device is healthy according to S.M.A.R.T.",
      labelNames := ["device"], samples := [] },
    ["smart_status", "passed"], .int)]

/-- One freshly constructed family of the ATA attribute table:
`type('smartmon_' + name, name, labels=['device'])` (no entry carries a
`doc` key, so help defaults to the name). -/
def attrFam (n : String) (k : MetricKind) : NumFamily :=
  { name := "smartmon_" ++ n, kind := k, help := n,
    labelNames := ["device"], samples := [] }

/-- `gen_attr_metrics()`: the ATA attribute mapping, a dict keyed by the
attribute id, in the insertion order of the source. Values are
(family, path within the attribute row, transform); the transform defaults
to the identity. -/
def gen_attr_metrics : List (ℚ × NumFamily × List String × Transform) :=
  [(4, attrFam "starts_stops_total" .counter, ["raw", "value"], .id),
   (5, attrFam "reallocated_sectors_total" .counter, ["raw", "value"], .id),
   (9, attrFam "power_on_hours" .counter, ["raw", "value"], .id),
   (10, attrFam "spin_retries_total" .counter, ["raw", "value"], .id),
   (12, attrFam "power_cycles_total" .counter, ["raw", "value"], .id),
   (187, attrFam "reported_uncorrectable_errors_total" .counter, ["raw", "value"], .id),
   (188, attrFam "command_timeouts_total" .counter, ["raw", "value"], .id),
   (190, attrFam "airflow_temperature_celsius" .gauge, ["value"], .sub100),
   (193, attrFam "load_cycles_total" .counter, ["raw", "value"], .id),
   (194, attrFam "temperature_celsius" .gauge, ["raw", "string"], .parseRawTemp),
   (196, attrFam "reallocated_events_total" .counter, ["raw", "value"], .id),
   (197, attrFam "current_pending_sectors" .gauge, ["raw", "value"], .id),
   (198, attrFam "offline_uncorrectable_sectors_total" .counter, ["raw", "value"], .id)]

/-- One freshly constructed NVMe family:
`type_(f'smartmon_{name}', help_ if help_ is not None else name,
labels=['device'])`. -/
def nvmeFam (n : String) (k : MetricKind) (help : Option String) : NumFamily :=
  { name := "smartmon_" ++ n, kind := k,
    help := match help with | some h => h | none => n,
    labelNames := ["device"], samples := [] }

/-- `gen_nvme_metrics()`: the NVMe health-log mapping list, entries
(family, key in the health log, transform). -/
def gen_nvme_metrics : List (NumFamily × String × Transform) :=
  [(nvmeFam "temperature_celsius" .gauge (some "temperature_celsius"), "temperature", .id),
   (nvmeFam "nvme_available_spare_ratio" .gauge none, "available_spare", .div100),
   (nvmeFam "nvme_available_spare_threshold_ratio" .gauge none, "available_spare_threshold", .div100),
   (nvmeFam "nvme_used_ratio" .gauge none, "percentage_used", .div100),
   (nvmeFam "nvme_data_units_read_bytes" .counter
      (some "NVME Data Units Read, converted to bytes (1 unit=512000 bytes)"), "data_units_read", .mul512000),
   (nvmeFam "nvme_data_units_written_bytes" .counter
      (some "NVME Data Units Written, converted to bytes (1 unit=512000 bytes)"), "data_units_written", .mul512000),
   (nvmeFam "nvme_host_reads" .counter (some "NVME Host Read Commands"), "host_reads", .id),
   (nvmeFam "nvme_host_writes" .counter (some "NVME Host Write Commands"), "host_writes", .id),
   (nvmeFam "nvme_controller_busy_time" .counter none, "controller_busy_time", .id),
   (nvmeFam "power_cycles_total" .counter (some "power_cycles_total"), "power_cycles", .id),
   (nvmeFam "power_on_hours" .counter (some "power_on_hours"), "power_on_hours", .id),
   (nvmeFam "nvme_unsafe_shutdowns" .counter none, "unsafe_shutdowns", .id),
   (nvmeFam "nvme_media_errors" .counter none, "media_errors", .id),
   (nvmeFam "nvme_num_err_log_entries" .counter none, "num_err_log_entries", .id)]

/-- The external environment: for each flag list, the parsed JSON of the
`smartctl` invocation's stdout, or `none` when `json.loads` (or the
subprocess machinery) raises. -/
structure World where
  run : List String → Option Json

/-- `smartctl(*flags)`: run the external tool and parse its stdout as JSON. -/
def smartctl (w : World) (flags : List String) : Option Json :=
  w.run flags

/-- Python `str(x)` of a JSON value, as used by `get_smartctl_version_info`
to join version components (there, ints). The reprs of composite values are
approximated; no claim depends on them. -/
def pyStr : Json → String
  | .num q => if q.den = 1 then toString q.num else toString q
  | .str s => s
  | .bool b => cond b "True" "False"
  | .null => "None"
  | .arr _ => "<list>"
  | .obj _ => "<dict>"

/-- `get_smartctl_version_info()` applied to the parsed `--version` output:
the info dict with the dotted version string and three passed-through
fields. -/
def get_smartctl_version_info (vj : Json) : Option (List (String × Json)) :=
  match getitem vj "smartctl" with
  | some d =>
    match (getitem d "version").bind asArr, getitem d "svn_revision",
          getitem d "platform_info", getitem d "build_info" with
    | some verArr, some svn, some plat, some build =>
      some [("version", .str (String.intercalate "." (verArr.map pyStr))),
            ("svn_revision", svn), ("platform_info", plat), ("build_info", build)]
    | _, _, _, _ => none
  | none => none

/-- `get_devices()` applied to the parsed `--scan-open` output:
`[x['name'] for x in ...['devices']]`. A non-string name is modelled as
failure (it would raise when passed to `subprocess.run`). -/
def get_devices (sj : Json) : Option (List String) :=
  match (getitem sj "devices").bind asArr with
  | some devs => devs.mapM (fun x => (getitem x "name").bind asStr)
  | none => none

/-- The wwn entry of the `get_device_info` dictionary:
`'\x7b:x\x7d ...'.format(...) if 'wwn' in device_data else ''`. -/
def wwnValue (d : Json) : Option Json :=
  if hasKey d "wwn" then
    match getitem d "wwn" with
    | some w =>
      match (getitem w "naa").bind asInt, (getitem w "oui").bind asInt,
            (getitem w "id").bind asInt with
      | some naa, some oui, some idc => some (.str (fmtWwn naa oui idc))
      | _, _, _ => none
    | none => none
  else some (.str "")

/-- `get_device_info(device_data)`: the label dictionary of one
`smartmon_device_info` sample, in the source's key order, with
`model_family` appended only when present. -/
def get_device_info (d : Json) : Option (List (String × Json)) :=
  match getitem d "device" with
  | some devObj =>
    match getitem devObj "name", getitem devObj "type", getitem devObj "protocol",
          getitem d "serial_number", wwnValue d, getitem d "firmware_version" with
    | some devName, some devType, some devProto, some serial, some wwn, some fw =>
      let base := [("device", devName), ("type", devType), ("protocol", devProto),
                   ("serial_number", serial), ("wwn", wwn),
                   ("firmware_version", fw)]
      if hasKey d "model_family" then
        match getitem d "model_family" with
        | some mf => some (base ++ [("model_family", mf)])
        | none => none
      else some base
    | _, _, _, _, _, _ => none
  | none => none

/-- The `for m, path, transform in metrics` loop of `get_device_metrics`:
each family gains one sample `([dev], transform(dig(d, path)))`. -/
def runMetrics (dev : String) (d : Json) :
    List (NumFamily × List String × Transform) →
    Option (List (NumFamily × List String × Transform))
  | [] => some []
  | (m, path, t) :: rest =>
    match (dig d path).bind t.apply with
    | some v =>
      match runMetrics dev d rest with
      | some rest' => some ((m.addMetric [dev] v, path, t) :: rest')
      | none => none
    | none => none

/-- The `for m, key, transform in nvme_metrics` loop: each family gains one
sample from the NVMe health log. -/
def runNvme (dev : String) (log : Json) :
    List (NumFamily × String × Transform) →
    Option (List (NumFamily × String × Transform))
  | [] => some []
  | (m, key, t) :: rest =>
    match (getitem log key).bind t.apply with
    | some v =>
      match runNvme dev log rest with
      | some rest' => some ((m.addMetric [dev] v, key, t) :: rest')
      | none => none
    | none => none

/-- The ATA attribute table threaded through the attribute loop. -/
abbrev AttrTable := List (ℚ × NumFamily × List String × Transform)

/-- Python dict lookup `attr_metrics[id]` on the id-keyed table
(first match; the generated table has distinct keys). -/
def alookup : AttrTable → ℚ → Option (NumFamily × List String × Transform)
  | [], _ => none
  | (k, e) :: rest, q => if k = q then some e else alookup rest q

/-- Mutating the family stored at key `q`: it gains the sample `([dev], v)`. -/
def updateAttr (ams : AttrTable) (q : ℚ) (dev : String) (v : ℚ) : AttrTable :=
  ams.map (fun e =>
    if e.1 = q then (e.1, e.2.1.addMetric [dev] v, e.2.2.1, e.2.2.2) else e)

/-- One iteration of `for attr in d['ata_smart_attributes']['table']`:
`attr['id']` is looked up (KeyError when absent); a numeric id is tested for
membership in the table (a non-numeric hashable id is never a key; an
unhashable id raises). A hit digs the row and adds one sample to that
family. -/
def runAttrRow (dev : String) (ams : AttrTable) (attr : Json) : Option AttrTable :=
  match getitem attr "id" with
  | some (.num q) =>
    match alookup ams q with
    | none => some ams
    | some (_, path, t) =>
      match (dig attr path).bind t.apply with
      | some v => some (updateAttr ams q dev v)
      | none => none
  | some (.arr _) => none
  | some (.obj _) => none
  | some _ => some ams
  | none => none

/-- The whole attribute loop over the table rows. -/
def runAttrRows (dev : String) (ams : AttrTable) : List Json → Option AttrTable
  | [] => some ams
  | row :: rest =>
    match runAttrRow dev ams row with
    | some ams' => runAttrRows dev ams' rest
    | none => none

/-- The local family objects of one `collect()` call, threaded through
`get_device_metrics` in place of Python's in-place mutation. -/
structure CollectState where
  devInfo : InfoFamily
  metrics : List (NumFamily × List String × Transform)
  attrMetrics : AttrTable
  nvmeMetrics : List (NumFamily × String × Transform)

/-- `get_device_metrics(dev, ...)` given the parsed `--all` report `d`:
adds the device-info sample, the general metrics, and then either the NVMe
samples (when the health log key is present) or the mapped ATA attribute
samples. -/
def get_device_metrics (dev : String) (d : Json) (st : CollectState) :
    Option CollectState :=
  match get_device_info d, runMetrics dev d st.metrics with
  | some info, some metrics' =>
    if hasKey d "nvme_smart_health_information_log" then
      match getitem d "nvme_smart_health_information_log" with
      | some log =>
        match runNvme dev log st.nvmeMetrics with
        | some nvme' =>
          some { devInfo := st.devInfo.addSample "smartmon_device_info" info 1,
                 metrics := metrics', attrMetrics := st.attrMetrics,
                 nvmeMetrics := nvme' }
        | none => none
      | none => none
    else
      match ((getitem d "ata_smart_attributes").bind
               (fun a => getitem a "table")).bind asArr with
      | some rows =>
        match runAttrRows dev st.attrMetrics rows with
        | some ams' =>
          some { devInfo := st.devInfo.addSample "smartmon_device_info" info 1,
                 metrics := metrics', attrMetrics := ams',
                 nvmeMetrics := st.nvmeMetrics }
        | none => none
      | none => none
  | _, _ => none

/-- The label-name list built in `collect()`; the source passes it to
`get_device_metrics`, which never uses the parameter. -/
def dev_info_labels : List String :=
  ["device", "type", "protocol", "model_family", "serial_number", "wwn",
   "firmware_version"]

/-- The fresh local state built by every `collect()` call: an empty
device-info family and freshly generated mapping tables. -/
def initState : CollectState :=
  { devInfo := { name := "smartmon_device",
                 help := "S.M.A.R.T. device information", samples := [] },
    metrics := gen_metrics,
    attrMetrics := gen_attr_metrics,
    nvmeMetrics := gen_nvme_metrics }

/-- The `for dev in get_devices()` loop: one `--all` invocation per device in
order, feeding `get_device_metrics`. Returns the final state (or `none` on
the first failure) together with the `smartctl` invocations actually made. -/
def collectDevices (w : World) (devs : List String) (st : CollectState) :
    Option CollectState × List (List String) :=
  match devs with
  | [] => (some st, [])
  | dev :: rest =>
    match smartctl w ["--all", dev] with
    | none => (none, [["--all", dev]])
    | some d =>
      match get_device_metrics dev d st with
      | none => (none, [["--all", dev]])
      | some st' =>
        let (r, tr) := collectDevices w rest st'
        (r, ["--all", dev] :: tr)

/-- Everything one successful `collect()` call yields, in yield order: the
smartmontools version info family, the device info family, and the numeric
families of the three mapping tables. -/
structure CollectOutput where
  versionInfo : InfoFamily
  devInfo : InfoFamily
  families : List NumFamily

/-- `SmartmonCollector.collect()`: the whole collection pass. The first
component is the yielded output (`none` when an uncaught exception aborts
the scrape, discarding all samples); the second is the ordered list of
`smartctl` invocations made before returning or raising. -/
def collect (w : World) : Option CollectOutput × List (List String) :=
  match smartctl w ["--version"] with
  | none => (none, [["--version"]])
  | some vj =>
    match get_smartctl_version_info vj with
    | none => (none, [["--version"]])
    | some vinfo =>
      match smartctl w ["--scan-open"] with
      | none => (none, [["--version"], ["--scan-open"]])
      | some sj =>
        match get_devices sj with
        | none => (none, [["--version"], ["--scan-open"]])
        | some devs =>
          match collectDevices w devs initState with
          | (none, tr) => (none, [["--version"], ["--scan-open"]] ++ tr)
          | (some st, tr) =>
            (some { versionInfo := mkInfoFamilyWith "smartmon"
                      "smartmontools information" vinfo,
                    devInfo := st.devInfo,
                    families := st.metrics.map (fun e => e.1)
                      ++ st.attrMetrics.map (fun e => e.2.1)
                      ++ st.nvmeMetrics.map (fun e => e.1) },
             [["--version"], ["--scan-open"]] ++ tr)

/-- The device list a scrape enumerates: the parsed `--scan-open` output fed
to `get_devices`. -/
def enumDevices (w : World) : Option (List String) :=
  (smartctl w ["--scan-open"]).bind get_devices

/-- The `SmartmonCollector` class: it defines no `__init__` and no instance
attribute, so an instance carries no state. -/
structure SmartmonCollector where

/-- A scrape of a registered collector instance calls `collect`; the
instance contributes nothing. -/
def SmartmonCollector.scrape (_ : SmartmonCollector) (w : World) :
    Option CollectOutput × List (List String) :=
  collect w

/-- A sequence of scrapes against the environments `ws`, in order: each
scrape is an independent `collect` call. -/
def scrapes (ws : List World) : List (Option CollectOutput) :=
  ws.map (fun w => (collect w).1)

/-- A sample NVMe health log, as `smartctl --all` reports it. -/
def nvmeLog : Json := .obj [
  ("temperature", .num 36), ("available_spare", .num 100),
  ("available_spare_threshold", .num 10), ("percentage_used", .num 3),
  ("data_units_read", .num 7), ("data_units_written", .num 11),
  ("host_reads", .num 5), ("host_writes", .num 6),
  ("controller_busy_time", .num 8), ("power_cycles", .num 9),
  ("power_on_hours", .num 100), ("unsafe_shutdowns", .num 2),
  ("media_errors", .num 0), ("num_err_log_entries", .num 1)]

/-- A sample `--all` report for an NVMe device. -/
def nvmeReport : Json := .obj [
  ("device", .obj [("name", .str "/dev/nvme0"), ("type", .str "nvme"),
                   ("protocol", .str "NVMe")]),
  ("serial_number", .str "SN1"),
  ("firmware_version", .str "FW1"),
  ("smart_status", .obj [("passed", .bool true)]),
  ("nvme_smart_health_information_log", nvmeLog)]

/-- A sample `--all` report for an ATA device with a wwn, a model family and
four attribute rows (one of them unmapped, id 1). -/
def ataReport : Json := .obj [
  ("device", .obj [("name", .str "/dev/sda"), ("type", .str "sat"),
                   ("protocol", .str "ATA")]),
  ("serial_number", .str "SN2"),
  ("model_family", .str "Fam"),
  ("wwn", .obj [("naa", .num 5), ("oui", .num 3274), ("id", .num 123456)]),
  ("firmware_version", .str "FW2"),
  ("smart_status", .obj [("passed", .bool false)]),
  ("ata_smart_attributes", .obj [("table", .arr [
     .obj [("id", .num 5), ("value", .num 100),
           ("raw", .obj [("value", .num 0), ("string", .str "0")])],
     .obj [("id", .num 190), ("value", .num 64),
           ("raw", .obj [("value", .num 36), ("string", .str "36")])],
     .obj [("id", .num 194), ("value", .num 36),
           ("raw", .obj [("value", .num 36), ("string", .str "36 (Min/Max 20/45)")])],
     .obj [("id", .num 1), ("value", .num 200),
           ("raw", .obj [("value", .num 0), ("string", .str "0")])]])])]

/-- A sample `--version` output. -/
def versionJson : Json := .obj [
  ("smartctl", .obj [("version", .arr [.num 7, .num 2]),
                     ("svn_revision", .str "5155"),
                     ("platform_info", .str "x86"),
                     ("build_info", .str "b")])]

/-- An environment with one ATA and one NVMe device, every invocation
succeeding. -/
def w0 : World := ⟨fun flags =>
  if flags = ["--version"] then some versionJson
  else if flags = ["--scan-open"] then
    some (.obj [("devices", .arr [.obj [("name", .str "/dev/sda")],
                                  .obj [("name", .str "/dev/nvme0")]])])
  else if flags = ["--all", "/dev/sda"] then some ataReport
  else if flags = ["--all", "/dev/nvme0"] then some nvmeReport
  else none⟩

/-- An environment whose one enumerated device yields unparsable `--all`
output. -/
def wFail : World := ⟨fun flags =>
  if flags = ["--version"] then some versionJson
  else if flags = ["--scan-open"] then
    some (.obj [("devices", .arr [.obj [("name", .str "/dev/sda")]])])
  else none⟩

/-- The state after processing the sample ATA report from a fresh pass
(used to exhibit concrete collection runs). -/
def devSt1 : CollectState :=
  match get_device_metrics "/dev/sda" ataReport initState with
  | some st => st
  | none => initState

/-- The state after processing the sample NVMe report from a fresh pass
(used to exhibit concrete collection runs). -/
def devSt2 : CollectState :=
  match get_device_metrics "/dev/nvme0" nvmeReport initState with
  | some st => st
  | none => initState

/-- The output of a full collection pass against `w0`
(used to exhibit concrete collection runs). -/
def collectOut0 : CollectOutput :=
  match (collect w0).1 with
  | some out => out
  | none => { versionInfo := { name := "", help := "", samples := [] },
              devInfo := { name := "", help := "", samples := [] },
              families := [] }

/-- The immutable part of a general-metrics table entry: path and transform. -/
def mskel (ms : List (NumFamily × List String × Transform)) :
    List (List String × Transform) :=
  ms.map (fun e => (e.2.1, e.2.2))

/-- The immutable part of an attribute-table entry: id, path and transform. -/
def askel (ams : AttrTable) : List (ℚ × List String × Transform) :=
  ams.map (fun e => (e.1, e.2.2.1, e.2.2.2))

/-- The immutable part of an NVMe-table entry: key and transform. -/
def nskel (ns : List (NumFamily × String × Transform)) :
    List (String × Transform) :=
  ns.map (fun e => (e.2.1, e.2.2))

/-- Lookup in an id/path/transform skeleton (first match). -/
def alookupSkel : List (ℚ × List String × Transform) → ℚ →
    Option (List String × Transform)
  | [], _ => none
  | (k, e) :: rest, q => if k = q then some e else alookupSkel rest q

/-- Whether one attribute row is processed without raising: its `id` must be
readable, an unhashable id raises, and a mapped id's row must dig and
transform successfully. -/
def rowOk (sk : List (ℚ × List String × Transform)) (row : Json) : Bool :=
  match getitem row "id" with
  | some (.num q) =>
    match alookupSkel sk q with
    | some (p, t) => ((dig row p).bind t.apply).isSome
    | none => true
  | some (.arr _) => false
  | some (.obj _) => false
  | some _ => true
  | none => false

/-- Whether `get_device_metrics` processes the report `d` without raising,
as a function of the report and the immutable table skeletons only. -/
def deviceOk (msk : List (List String × Transform))
    (ask : List (ℚ × List String × Transform))
    (nsk : List (String × Transform)) (d : Json) : Bool :=
  (get_device_info d).isSome &&
  msk.all (fun e => ((dig d e.1).bind e.2.apply).isSome) &&
  (if hasKey d "nvme_smart_health_information_log" then
    match getitem d "nvme_smart_health_information_log" with
    | some log => nsk.all (fun e => ((getitem log e.1).bind e.2.apply).isSome)
    | none => false
  else
    match ((getitem d "ata_smart_attributes").bind
             (fun a => getitem a "table")).bind asArr with
    | some rows => rows.all (fun r => rowOk ask r)
    | none => false)

/-- How many rows of `rows` carry exactly the attribute id `q`. -/
def idCount (rows : List Json) (q : ℚ) : ℕ :=
  (rows.filter (fun r =>
    match getitem r "id" with
    | some (.num q') => decide (q' = q)
    | _ => false)).length

theorem dig_append :
    ∀ (p : List String) (data d' : Json), dig data p = some d' →
      ∀ q, dig data (p ++ q) = dig d' q := by
  intro p
  induction p with
  | nil =>
    intro data d' hp q
    simp [dig] at hp
    subst hp
    rfl
  | cons k p ih =>
    intro data d' hp q
    cases hg : getitem data k with
    | none => simp [dig, hg] at hp
    | some d =>
      simp [dig, hg] at hp ⊢
      exact ih d d' hp q

/-- Claim C9: `dig(data, path)` is the left fold of item lookup over the
path: `dig data [] = data`, and whenever every lookup along `p` succeeds
(i.e. `dig data p = some d'`), `dig data (p ++ q) = dig d' q`. `dig` is a
pure function of `data`, so it does not modify it. -/
theorem dig_is_lookup_fold (data : Json) :
    dig data [] = some data ∧
    ∀ p q d', dig data p = some d' → dig data (p ++ q) = dig d' q := by
  constructor
  · rfl
  · intro p q d' hp
    exact dig_append p data d' hp q

theorem dig_is_lookup_fold_w :
    dig ataReport [] = some ataReport ∧
    dig ataReport (["wwn"] ++ ["naa"]) =
      dig (.obj [("naa", .num 5), ("oui", .num 3274), ("id", .num 123456)]) ["naa"] := by
  exact ⟨(dig_is_lookup_fold ataReport).1,
         (dig_is_lookup_fold ataReport).2 ["wwn"] ["naa"] _ rfl⟩

/-- Claim C10: the numeric transforms of the mapping tables are exact
arithmetic on the looked-up value (numbers modelled as exact rationals):
attribute 190 maps to `100 - x` of the normalized value, attribute 194 to
the first whitespace-separated token of the raw string parsed as a decimal
number, the NVMe data-unit counters to the raw count times 512000, and the
NVMe spare/used ratios to the raw percentage divided by 100. -/
theorem transforms_are_exact_arithmetic (x : ℚ) (s tok : String) (v : ℚ) :
    (alookup gen_attr_metrics 190).map (fun e => e.2.2) = some Transform.sub100 ∧
    Transform.apply .sub100 (.num x) = some (100 - x) ∧
    (alookup gen_attr_metrics 194).map (fun e => e.2.2) = some Transform.parseRawTemp ∧
    ((pySplit s).head? = some tok → parseDecimal tok = some v →
       Transform.apply .parseRawTemp (.str s) = some v) ∧
    (gen_nvme_metrics.filter (fun e => e.2.1 == "data_units_read")).map
      (fun e => e.2.2) = [.mul512000] ∧
    (gen_nvme_metrics.filter (fun e => e.2.1 == "data_units_written")).map
      (fun e => e.2.2) = [.mul512000] ∧
    Transform.apply .mul512000 (.num x) = some (x * 512000) ∧
    (gen_nvme_metrics.filter (fun e => e.2.1 == "available_spare")).map
      (fun e => e.2.2) = [.div100] ∧
    (gen_nvme_metrics.filter (fun e => e.2.1 == "available_spare_threshold")).map
      (fun e => e.2.2) = [.div100] ∧
    (gen_nvme_metrics.filter (fun e => e.2.1 == "percentage_used")).map
      (fun e => e.2.2) = [.div100] ∧
    Transform.apply .div100 (.num x) = some (x / 100) := by
  refine ⟨rfl, by simp [Transform.apply, asNum], rfl, ?_, rfl, rfl, ?_, rfl, rfl, rfl,
    by simp [Transform.apply, asNum]⟩
  · intro h1 h2
    simp [Transform.apply, h1, h2]
  · simp [Transform.apply, asNum]
    ring

theorem transforms_are_exact_arithmetic_w :
    (pySplit "36 (Min/Max 20/45)").head? = some "36" ∧
    parseDecimal "36" = some 36 ∧
    Transform.apply .parseRawTemp (.str "36 (Min/Max 20/45)") = some 36 ∧
    Transform.apply .div100 (.num 7) = some (7 / 100) := by
  obtain ⟨-, -, -, h194, -, -, -, -, -, -, hdiv⟩ :=
    transforms_are_exact_arithmetic 7 "36 (Min/Max 20/45)" "36" 36
  have hs : (pySplit "36 (Min/Max 20/45)").head? = some "36" := rfl
  have hp : parseDecimal "36" = some 36 := by
    simp [parseDecimal, digitsToNat]
  exact ⟨hs, hp, h194 hs hp, hdiv⟩

/-- Inversion of a successful `get_device_info`: every field was looked up
successfully and the result dictionary has the literal shape of the source's
dict display, with `model_family` appended exactly when present. -/
theorem get_device_info_inv (d : Json) (info : List (String × Json))
    (h : get_device_info d = some info) :
    ∃ devObj devName devType devProto serial wwn fw,
      getitem d "device" = some devObj ∧
      getitem devObj "name" = some devName ∧
      getitem devObj "type" = some devType ∧
      getitem devObj "protocol" = some devProto ∧
      getitem d "serial_number" = some serial ∧
      wwnValue d = some wwn ∧
      getitem d "firmware_version" = some fw ∧
      ((hasKey d "model_family" = true ∧ ∃ mf, getitem d "model_family" = some mf ∧
          info = [("device", devName), ("type", devType), ("protocol", devProto),
                  ("serial_number", serial), ("wwn", wwn), ("firmware_version", fw),
                  ("model_family", mf)]) ∨
       (hasKey d "model_family" = false ∧
          info = [("device", devName), ("type", devType), ("protocol", devProto),
                  ("serial_number", serial), ("wwn", wwn),
                  ("firmware_version", fw)])) := by
  unfold get_device_info at h
  cases h1 : getitem d "device" with
  | none => rw [h1] at h; dsimp only at h; exact absurd h (by simp)
  | some devObj =>
  rw [h1] at h
  dsimp only at h
  cases h2 : getitem devObj "name" with
  | none => rw [h2] at h; dsimp only at h; exact absurd h (by simp)
  | some devName =>
  rw [h2] at h
  cases h3 : getitem devObj "type" with
  | none => rw [h3] at h; dsimp only at h; exact absurd h (by simp)
  | some devType =>
  rw [h3] at h
  cases h4 : getitem devObj "protocol" with
  | none => rw [h4] at h; dsimp only at h; exact absurd h (by simp)
  | some devProto =>
  rw [h4] at h
  cases h5 : getitem d "serial_number" with
  | none => rw [h5] at h; dsimp only at h; exact absurd h (by simp)
  | some serial =>
  rw [h5] at h
  cases h6 : wwnValue d with
  | none => rw [h6] at h; dsimp only at h; exact absurd h (by simp)
  | some wwn =>
  rw [h6] at h
  cases h7 : getitem d "firmware_version" with
  | none => rw [h7] at h; dsimp only at h; exact absurd h (by simp)
  | some fw =>
  rw [h7] at h
  dsimp only at h
  refine ⟨devObj, devName, devType, devProto, serial, wwn, fw,
    rfl, h2, h3, h4, rfl, rfl, rfl, ?_⟩
  by_cases hm : hasKey d "model_family" = true
  · rw [if_pos hm] at h
    cases h8 : getitem d "model_family" with
    | none => rw [h8] at h; simp at h
    | some mf =>
      rw [h8] at h
      simp only [Option.some.injEq] at h
      exact Or.inl ⟨hm, mf, rfl, h.symm⟩
  · rw [if_neg hm] at h
    simp only [Option.some.injEq] at h
    exact Or.inr ⟨Bool.of_not_eq_true hm, h.symm⟩

/-- Inversion of a successful `wwnValue`. -/
theorem wwnValue_inv (d : Json) (wwn : Json) (h : wwnValue d = some wwn) :
    (hasKey d "wwn" = false ∧ wwn = .str "") ∨
    (hasKey d "wwn" = true ∧ ∃ w naa oui idc,
      getitem d "wwn" = some w ∧
      (getitem w "naa").bind asInt = some naa ∧
      (getitem w "oui").bind asInt = some oui ∧
      (getitem w "id").bind asInt = some idc ∧
      wwn = .str (fmtWwn naa oui idc)) := by
  unfold wwnValue at h
  by_cases hw : hasKey d "wwn" = true
  · rw [if_pos hw] at h
    cases h1 : getitem d "wwn" with
    | none => rw [h1] at h; dsimp only at h; exact absurd h (by simp)
    | some w =>
    rw [h1] at h
    dsimp only at h
    cases h2 : (getitem w "naa").bind asInt with
    | none => rw [h2] at h; dsimp only at h; exact absurd h (by simp)
    | some naa =>
    rw [h2] at h
    cases h3 : (getitem w "oui").bind asInt with
    | none => rw [h3] at h; dsimp only at h; exact absurd h (by simp)
    | some oui =>
    rw [h3] at h
    cases h4 : (getitem w "id").bind asInt with
    | none => rw [h4] at h; dsimp only at h; exact absurd h (by simp)
    | some idc =>
    rw [h4] at h
    dsimp only at h
    simp only [Option.some.injEq] at h
    exact Or.inr ⟨hw, w, naa, oui, idc, rfl, h2, h3, h4, h.symm⟩
  · rw [if_neg hw] at h
    simp only [Option.some.injEq] at h
    exact Or.inl ⟨Bool.of_not_eq_true hw, h.symm⟩

/-- Claim C5: a successful `get_device_info` dictionary always has the keys
device, type, protocol, serial_number, firmware_version and wwn; it has
model_family exactly when the report does; and its wwn value is the three
world-wide-name components formatted in hexadecimal when the report has a
`wwn` field, and the empty string otherwise. -/
theorem device_info_shape (d : Json) (info : List (String × Json))
    (h : get_device_info d = some info) :
    (slookup info "device").isSome = true ∧
    (slookup info "type").isSome = true ∧
    (slookup info "protocol").isSome = true ∧
    (slookup info "serial_number").isSome = true ∧
    (slookup info "firmware_version").isSome = true ∧
    (slookup info "wwn").isSome = true ∧
    ((slookup info "model_family").isSome = true ↔ hasKey d "model_family" = true) ∧
    (hasKey d "wwn" = false → slookup info "wwn" = some (.str "")) ∧
    (hasKey d "wwn" = true → ∃ w naa oui idc,
      getitem d "wwn" = some w ∧
      (getitem w "naa").bind asInt = some naa ∧
      (getitem w "oui").bind asInt = some oui ∧
      (getitem w "id").bind asInt = some idc ∧
      slookup info "wwn" = some (.str (fmtWwn naa oui idc))) := by
  obtain ⟨devObj, devName, devType, devProto, serial, wwn, fw,
    h1, h2, h3, h4, h5, h6, h7, hcase⟩ := get_device_info_inv d info h
  have hwwn := wwnValue_inv d wwn h6
  rcases hcase with ⟨hm, mf, h8, hinfo⟩ | ⟨hm, hinfo⟩ <;> subst hinfo <;>
    refine ⟨rfl, rfl, rfl, rfl, rfl, rfl, by simp [slookup, hm], ?_, ?_⟩ <;>
    [skip; skip; skip; skip] <;>
  · first
    | (intro hwf
       rcases hwwn with ⟨hw0, hwv⟩ | ⟨hw0, _⟩
       · subst hwv; rfl
       · rw [hwf] at hw0; exact absurd hw0 (by simp))
    | (intro hwt
       rcases hwwn with ⟨hw0, _⟩ | ⟨hw0, w, naa, oui, idc, ha, hb, hc, hd, hwv⟩
       · rw [hwt] at hw0; exact absurd hw0 (by simp)
       · exact ⟨w, naa, oui, idc, ha, hb, hc, hd, by subst hwv; rfl⟩)

theorem device_info_shape_w :
    (slookup [("device", Json.str "/dev/sda"), ("type", Json.str "sat"),
      ("protocol", Json.str "ATA"), ("serial_number", Json.str "SN2"),
      ("wwn", Json.str "5 000cca 00001e240"), ("firmware_version", Json.str "FW2"),
      ("model_family", Json.str "Fam")] "device").isSome = true ∧
    ((slookup [("device", Json.str "/dev/sda"), ("type", Json.str "sat"),
      ("protocol", Json.str "ATA"), ("serial_number", Json.str "SN2"),
      ("wwn", Json.str "5 000cca 00001e240"), ("firmware_version", Json.str "FW2"),
      ("model_family", Json.str "Fam")] "model_family").isSome = true ↔
      hasKey ataReport "model_family" = true) ∧
    (∃ w naa oui idc,
      getitem ataReport "wwn" = some w ∧
      (getitem w "naa").bind asInt = some naa ∧
      (getitem w "oui").bind asInt = some oui ∧
      (getitem w "id").bind asInt = some idc ∧
      slookup [("device", Json.str "/dev/sda"), ("type", Json.str "sat"),
        ("protocol", Json.str "ATA"), ("serial_number", Json.str "SN2"),
        ("wwn", Json.str "5 000cca 00001e240"), ("firmware_version", Json.str "FW2"),
        ("model_family", Json.str "Fam")] "wwn" =
        some (.str (fmtWwn naa oui idc))) := by
  obtain ⟨hdev, -, -, -, -, -, hmf, -, hwwn⟩ :=
    device_info_shape ataReport
      [("device", Json.str "/dev/sda"), ("type", Json.str "sat"),
       ("protocol", Json.str "ATA"), ("serial_number", Json.str "SN2"),
       ("wwn", Json.str "5 000cca 00001e240"), ("firmware_version", Json.str "FW2"),
       ("model_family", Json.str "Fam")] rfl
  exact ⟨hdev, hmf, hwwn rfl⟩

theorem runMetrics_isSome (dev : String) (d : Json) :
    ∀ ms, (runMetrics dev d ms).isSome =
      ms.all (fun e => ((dig d e.2.1).bind e.2.2.apply).isSome) := by
  intro ms
  induction ms with
  | nil => rfl
  | cons e rest ih =>
    obtain ⟨m, path, t⟩ := e
    dsimp [runMetrics]
    cases hv : (dig d path).bind t.apply with
    | none => simp
    | some v =>
      cases hr : runMetrics dev d rest with
      | none => rw [hr] at ih; simp [← ih]
      | some rest' => rw [hr] at ih; simp [← ih]

theorem runMetrics_some (dev : String) (d : Json) :
    ∀ ms ms', runMetrics dev d ms = some ms' →
      List.Forall₂ (fun e e' => ∃ v, (dig d e.2.1).bind e.2.2.apply = some v ∧
        e' = (e.1.addMetric [dev] v, e.2.1, e.2.2)) ms ms' := by
  intro ms
  induction ms with
  | nil =>
    intro ms' h
    simp [runMetrics] at h
    subst h
    exact .nil
  | cons e rest ih =>
    obtain ⟨m, path, t⟩ := e
    intro ms' h
    dsimp [runMetrics] at h
    cases hv : (dig d path).bind t.apply with
    | none => rw [hv] at h; dsimp only at h; exact absurd h (by simp)
    | some v =>
      rw [hv] at h
      dsimp only at h
      cases hr : runMetrics dev d rest with
      | none => rw [hr] at h; dsimp only at h; exact absurd h (by simp)
      | some rest' =>
        rw [hr] at h
        dsimp only at h
        injection h with h
        subst h
        exact .cons ⟨v, hv, rfl⟩ (ih rest' hr)

theorem runNvme_isSome (dev : String) (log : Json) :
    ∀ ns, (runNvme dev log ns).isSome =
      ns.all (fun e => ((getitem log e.2.1).bind e.2.2.apply).isSome) := by
  intro ns
  induction ns with
  | nil => rfl
  | cons e rest ih =>
    obtain ⟨m, key, t⟩ := e
    dsimp [runNvme]
    cases hv : (getitem log key).bind t.apply with
    | none => simp
    | some v =>
      cases hr : runNvme dev log rest with
      | none => rw [hr] at ih; simp [← ih]
      | some rest' => rw [hr] at ih; simp [← ih]

theorem runNvme_some (dev : String) (log : Json) :
    ∀ ns ns', runNvme dev log ns = some ns' →
      List.Forall₂ (fun e e' => ∃ v, (getitem log e.2.1).bind e.2.2.apply = some v ∧
        e' = (e.1.addMetric [dev] v, e.2.1, e.2.2)) ns ns' := by
  intro ns
  induction ns with
  | nil =>
    intro ns' h
    simp [runNvme] at h
    subst h
    exact .nil
  | cons e rest ih =>
    obtain ⟨m, key, t⟩ := e
    intro ns' h
    dsimp [runNvme] at h
    cases hv : (getitem log key).bind t.apply with
    | none => rw [hv] at h; dsimp only at h; exact absurd h (by simp)
    | some v =>
      rw [hv] at h
      dsimp only at h
      cases hr : runNvme dev log rest with
      | none => rw [hr] at h; dsimp only at h; exact absurd h (by simp)
      | some rest' =>
        rw [hr] at h
        dsimp only at h
        injection h with h
        subst h
        exact .cons ⟨v, hv, rfl⟩ (ih rest' hr)

theorem alookup_eq_none (ams : AttrTable) (q : ℚ) :
    alookup ams q = none → ∀ e ∈ ams, e.1 ≠ q := by
  induction ams with
  | nil => intro _ e he; simp at he
  | cons e₀ rest ih =>
    intro h e he
    obtain ⟨k, m, path, t⟩ := e₀
    dsimp [alookup] at h
    by_cases hk : k = q
    · rw [if_pos hk] at h; exact absurd h (by simp)
    · rw [if_neg hk] at h
      rcases List.mem_cons.mp he with rfl | hmem
      · exact hk
      · exact ih h e hmem

theorem alookupSkel_askel (ams : AttrTable) (q : ℚ) :
    alookupSkel (askel ams) q = (alookup ams q).map (fun e => (e.2.1, e.2.2)) := by
  induction ams with
  | nil => rfl
  | cons e rest ih =>
    obtain ⟨k, m, path, t⟩ := e
    dsimp [askel, alookupSkel, alookup]
    by_cases hk : k = q
    · simp [hk]
    · rw [if_neg hk, if_neg hk]
      exact ih

theorem askel_updateAttr (ams : AttrTable) (q : ℚ) (dev : String) (v : ℚ) :
    askel (updateAttr ams q dev v) = askel ams := by
  induction ams with
  | nil => rfl
  | cons e rest ih =>
    have h1 : updateAttr (e :: rest) q dev v =
        (if e.1 = q then (e.1, e.2.1.addMetric [dev] v, e.2.2.1, e.2.2.2) else e) ::
          updateAttr rest q dev v := rfl
    have h2 : ∀ (x : ℚ × NumFamily × List String × Transform) (l : AttrTable),
        askel (x :: l) = (x.1, x.2.2.1, x.2.2.2) :: askel l := fun _ _ => rfl
    rw [h1, h2, h2, ih]
    by_cases hk : e.1 = q
    · rw [if_pos hk]
    · rw [if_neg hk]

theorem runAttrRow_isSome (dev : String) (ams : AttrTable) (row : Json) :
    (runAttrRow dev ams row).isSome = rowOk (askel ams) row := by
  unfold runAttrRow rowOk
  cases hid : getitem row "id" with
  | none => rfl
  | some idj =>
    cases idj with
    | num q =>
      dsimp only
      rw [alookupSkel_askel]
      cases hl : alookup ams q with
      | none => rfl
      | some e =>
        obtain ⟨m, path, t⟩ := e
        dsimp only [Option.map_some']
        cases hv : (dig row path).bind t.apply with
        | none => rfl
        | some v => rfl
    | null => rfl
    | bool b => rfl
    | str s => rfl
    | arr xs => rfl
    | obj kvs => rfl

theorem runAttrRow_skel (dev : String) (ams : AttrTable) (row : Json)
    (ams' : AttrTable) (h : runAttrRow dev ams row = some ams') :
    askel ams' = askel ams := by
  unfold runAttrRow at h
  cases hid : getitem row "id" with
  | none => rw [hid] at h; exact absurd h (by simp)
  | some idj =>
    rw [hid] at h
    cases idj with
    | num q =>
      dsimp only at h
      cases hl : alookup ams q with
      | none =>
        rw [hl] at h
        injection h with h
        subst h
        rfl
      | some e =>
        obtain ⟨m, path, t⟩ := e
        rw [hl] at h
        dsimp only at h
        cases hv : (dig row path).bind t.apply with
        | none => rw [hv] at h; dsimp only at h; exact absurd h (by simp)
        | some v =>
          rw [hv] at h
          dsimp only at h
          injection h with h
          subst h
          exact askel_updateAttr ams q dev v
    | null => injection h with h; subst h; rfl
    | bool b => injection h with h; subst h; rfl
    | str s => injection h with h; subst h; rfl
    | arr xs => exact absurd h (by simp)
    | obj kvs => exact absurd h (by simp)

theorem idCount_cons (row : Json) (rows : List Json) (q : ℚ) :
    idCount (row :: rows) q = idCount [row] q + idCount rows q := by
  unfold idCount
  cases hid : getitem row "id" with
  | none => simp [List.filter, hid]
  | some idj =>
    cases idj <;> simp [List.filter, hid] <;>
      rename_i q' <;> by_cases hq : q' = q <;> simp [hq, Nat.add_comm]

theorem runAttrRow_counts (dev : String) (ams : AttrTable) (row : Json)
    (ams' : AttrTable) (h : runAttrRow dev ams row = some ams') :
    ams'.map (fun e => (e.1, e.2.1.samples.length)) =
      ams.map (fun e => (e.1, e.2.1.samples.length + idCount [row] e.1)) := by
  unfold runAttrRow at h
  cases hid : getitem row "id" with
  | none => rw [hid] at h; exact absurd h (by simp)
  | some idj =>
    rw [hid] at h
    cases idj with
    | num q =>
      dsimp only at h
      cases hl : alookup ams q with
      | none =>
        rw [hl] at h
        injection h with h
        subst h
        have hne := alookup_eq_none ams q hl
        apply List.map_congr_left
        intro e he
        have hqe : ¬ q = e.1 := fun hh => hne e he hh.symm
        have hz : idCount [row] e.1 = 0 := by
          unfold idCount
          simp [List.filter, hid, hqe]
        rw [hz, Nat.add_zero]
      | some e₀ =>
        obtain ⟨m, path, t⟩ := e₀
        rw [hl] at h
        dsimp only at h
        cases hv : (dig row path).bind t.apply with
        | none => rw [hv] at h; dsimp only at h; exact absurd h (by simp)
        | some v =>
          rw [hv] at h
          dsimp only at h
          injection h with h
          subst h
          unfold updateAttr
          rw [List.map_map]
          apply List.map_congr_left
          intro e _
          by_cases hk : e.1 = q
          · have ho : idCount [row] e.1 = 1 := by
              unfold idCount
              simp [List.filter, hid, hk.symm]
            simp [Function.comp, if_pos hk, NumFamily.addMetric, ho]
          · have hqe : ¬ q = e.1 := fun hh => hk hh.symm
            have hz : idCount [row] e.1 = 0 := by
              unfold idCount
              simp [List.filter, hid, hqe]
            simp [Function.comp, if_neg hk, hz]
    | null =>
      injection h with h
      subst h
      apply List.map_congr_left
      intro e _
      have hz : idCount [row] e.1 = 0 := by unfold idCount; simp [List.filter, hid]
      rw [hz, Nat.add_zero]
    | bool b =>
      injection h with h
      subst h
      apply List.map_congr_left
      intro e _
      have hz : idCount [row] e.1 = 0 := by unfold idCount; simp [List.filter, hid]
      rw [hz, Nat.add_zero]
    | str s2 =>
      injection h with h
      subst h
      apply List.map_congr_left
      intro e _
      have hz : idCount [row] e.1 = 0 := by unfold idCount; simp [List.filter, hid]
      rw [hz, Nat.add_zero]
    | arr xs => exact absurd h (by simp)
    | obj kvs => exact absurd h (by simp)

theorem map_len_shift (c1 c2 : ℚ → ℕ) :
    ∀ (l1 l2 : AttrTable),
      l1.map (fun e => (e.1, e.2.1.samples.length)) =
        l2.map (fun e => (e.1, e.2.1.samples.length + c1 e.1)) →
      l1.map (fun e => (e.1, e.2.1.samples.length + c2 e.1)) =
        l2.map (fun e => (e.1, e.2.1.samples.length + c1 e.1 + c2 e.1)) := by
  intro l1
  induction l1 with
  | nil =>
    intro l2 h
    cases l2 with
    | nil => rfl
    | cons e2 r2 => simp at h
  | cons e1 r1 ih =>
    intro l2 h
    cases l2 with
    | nil => simp at h
    | cons e2 r2 =>
      simp only [List.map_cons, List.cons.injEq] at h ⊢
      obtain ⟨hhead, htail⟩ := h
      rw [Prod.mk.injEq] at hhead
      obtain ⟨hfst, hsnd⟩ := hhead
      refine ⟨?_, ih r2 htail⟩
      rw [hfst, hsnd]

theorem runAttrRows_isSome (dev : String) :
    ∀ (rows : List Json) (ams : AttrTable),
      (runAttrRows dev ams rows).isSome = rows.all (fun r => rowOk (askel ams) r) := by
  intro rows
  induction rows with
  | nil => intro ams; rfl
  | cons row rest ih =>
    intro ams
    dsimp [runAttrRows]
    cases hr : runAttrRow dev ams row with
    | none =>
      have := runAttrRow_isSome dev ams row
      rw [hr] at this
      simp [← this]
    | some ams' =>
      have hok := runAttrRow_isSome dev ams row
      rw [hr] at hok
      have hskel := runAttrRow_skel dev ams row ams' hr
      rw [ih ams', hskel, ← hok]
      simp

theorem runAttrRows_skel (dev : String) :
    ∀ (rows : List Json) (ams ams' : AttrTable),
      runAttrRows dev ams rows = some ams' → askel ams' = askel ams := by
  intro rows
  induction rows with
  | nil =>
    intro ams ams' h
    injection h with h
    subst h
    rfl
  | cons row rest ih =>
    intro ams ams' h
    dsimp [runAttrRows] at h
    cases hr : runAttrRow dev ams row with
    | none => rw [hr] at h; exact absurd h (by simp)
    | some ams₁ =>
      rw [hr] at h
      dsimp only at h
      exact (ih ams₁ ams' h).trans (runAttrRow_skel dev ams row ams₁ hr)

theorem runAttrRows_counts (dev : String) :
    ∀ (rows : List Json) (ams ams' : AttrTable),
      runAttrRows dev ams rows = some ams' →
      ams'.map (fun e => (e.1, e.2.1.samples.length)) =
        ams.map (fun e => (e.1, e.2.1.samples.length + idCount rows e.1)) := by
  intro rows
  induction rows with
  | nil =>
    intro ams ams' h
    injection h with h
    subst h
    simp [idCount]
  | cons row rest ih =>
    intro ams ams' h
    dsimp [runAttrRows] at h
    cases hr : runAttrRow dev ams row with
    | none => rw [hr] at h; exact absurd h (by simp)
    | some ams₁ =>
      rw [hr] at h
      dsimp only at h
      have h1 := runAttrRow_counts dev ams row ams₁ hr
      have h2 := ih ams₁ ams' h
      have h3 := map_len_shift (fun q => idCount [row] q) (fun q => idCount rest q) ams₁ ams h1
      rw [h2, h3]
      apply List.map_congr_left
      intro e _
      rw [idCount_cons row rest e.1]
      simp [Nat.add_assoc]

theorem all_map_eq {α β : Type} (l : List α) (f : α → β) (p : β → Bool) :
    (l.map f).all p = l.all (fun a => p (f a)) := by
  induction l with
  | nil => rfl
  | cons a l ih => simp [List.all_cons, ih]

theorem get_device_metrics_isSome (dev : String) (d : Json) (st : CollectState) :
    (get_device_metrics dev d st).isSome =
      deviceOk (mskel st.metrics) (askel st.attrMetrics) (nskel st.nvmeMetrics) d := by
  have hms : (mskel st.metrics).all (fun e => ((dig d e.1).bind e.2.apply).isSome)
      = st.metrics.all (fun e => ((dig d e.2.1).bind e.2.2.apply).isSome) := by
    unfold mskel
    rw [all_map_eq]
  unfold get_device_metrics deviceOk
  rw [hms]
  cases hi : get_device_info d with
  | none =>
    cases hm : runMetrics dev d st.metrics with
    | none => simp
    | some ms' => simp
  | some info =>
    cases hm : runMetrics dev d st.metrics with
    | none =>
      have hall := runMetrics_isSome dev d st.metrics
      rw [hm] at hall
      simp [← hall]
    | some ms' =>
      have hall := runMetrics_isSome dev d st.metrics
      rw [hm] at hall
      dsimp only
      rw [← hall]
      simp only [Option.isSome_some, Bool.true_and]
      by_cases hn : hasKey d "nvme_smart_health_information_log" = true
      · rw [if_pos hn, if_pos hn]
        cases hlog : getitem d "nvme_smart_health_information_log" with
        | none => rfl
        | some log =>
          dsimp only
          have hns : (nskel st.nvmeMetrics).all
              (fun e => ((getitem log e.1).bind e.2.apply).isSome)
              = st.nvmeMetrics.all
                (fun e => ((getitem log e.2.1).bind e.2.2.apply).isSome) := by
            unfold nskel
            rw [all_map_eq]
          rw [hns, ← runNvme_isSome dev log st.nvmeMetrics]
          cases hrn : runNvme dev log st.nvmeMetrics with
          | none => rfl
          | some ns' => rfl
      · rw [if_neg hn, if_neg hn]
        cases hta : ((getitem d "ata_smart_attributes").bind
            (fun a => getitem a "table")).bind asArr with
        | none => rfl
        | some rows =>
          dsimp only
          rw [← runAttrRows_isSome dev rows st.attrMetrics]
          cases hrr : runAttrRows dev st.attrMetrics rows with
          | none => rfl
          | some ams' => rfl

theorem get_device_metrics_some (dev : String) (d : Json) (st st' : CollectState)
    (h : get_device_metrics dev d st = some st') :
    ∃ info, get_device_info d = some info ∧
      st'.devInfo = st.devInfo.addSample "smartmon_device_info" info 1 ∧
      runMetrics dev d st.metrics = some st'.metrics ∧
      ((hasKey d "nvme_smart_health_information_log" = true ∧
          st'.attrMetrics = st.attrMetrics ∧
          ∃ log, getitem d "nvme_smart_health_information_log" = some log ∧
            runNvme dev log st.nvmeMetrics = some st'.nvmeMetrics) ∨
       (hasKey d "nvme_smart_health_information_log" = false ∧
          st'.nvmeMetrics = st.nvmeMetrics ∧
          ∃ rows, ((getitem d "ata_smart_attributes").bind
              (fun a => getitem a "table")).bind asArr = some rows ∧
            runAttrRows dev st.attrMetrics rows = some st'.attrMetrics)) := by
  unfold get_device_metrics at h
  cases hi : get_device_info d with
  | none =>
    rw [hi] at h
    cases hm : runMetrics dev d st.metrics with
    | none => rw [hm] at h; exact absurd h (by simp)
    | some ms' => rw [hm] at h; exact absurd h (by simp)
  | some info =>
    rw [hi] at h
    cases hm : runMetrics dev d st.metrics with
    | none => rw [hm] at h; exact absurd h (by simp)
    | some ms' =>
      rw [hm] at h
      dsimp only at h
      by_cases hn : hasKey d "nvme_smart_health_information_log" = true
      · rw [if_pos hn] at h
        cases hlog : getitem d "nvme_smart_health_information_log" with
        | none => rw [hlog] at h; exact absurd h (by simp)
        | some log =>
          rw [hlog] at h
          dsimp only at h
          cases hrn : runNvme dev log st.nvmeMetrics with
          | none => rw [hrn] at h; dsimp only at h; exact absurd h (by simp)
          | some ns' =>
            rw [hrn] at h
            dsimp only at h
            injection h with h
            subst h
            exact ⟨info, rfl, rfl, rfl, Or.inl ⟨hn, rfl, log, rfl, hrn⟩⟩
      · rw [if_neg hn] at h
        cases hta : ((getitem d "ata_smart_attributes").bind
            (fun a => getitem a "table")).bind asArr with
        | none => rw [hta] at h; dsimp only at h; exact absurd h (by simp)
        | some rows =>
          rw [hta] at h
          dsimp only at h
          cases hrr : runAttrRows dev st.attrMetrics rows with
          | none => rw [hrr] at h; dsimp only at h; exact absurd h (by simp)
          | some ams' =>
            rw [hrr] at h
            dsimp only at h
            injection h with h
            subst h
            exact ⟨info, rfl, rfl, rfl,
              Or.inr ⟨Bool.of_not_eq_true hn, rfl, rows, rfl, hrr⟩⟩

theorem forall2_proj {α β γ : Type} (R : α → β → Prop) (f : α → γ) (g : β → γ)
    (hfg : ∀ a b, R a b → g b = f a) :
    ∀ {l1 : List α} {l2 : List β}, List.Forall₂ R l1 l2 → l2.map g = l1.map f := by
  intro l1 l2 hf
  induction hf with
  | nil => rfl
  | cons hrel _ ih => simp [List.map_cons, ih, hfg _ _ hrel]

theorem runMetrics_skel (dev : String) (d : Json)
    (ms ms' : List (NumFamily × List String × Transform))
    (h : runMetrics dev d ms = some ms') : mskel ms' = mskel ms := by
  unfold mskel
  refine forall2_proj _ _ _ ?_ (runMetrics_some dev d ms ms' h)
  rintro a b ⟨v, hv, rfl⟩
  rfl

theorem runMetrics_labelNames (dev : String) (d : Json)
    (ms ms' : List (NumFamily × List String × Transform))
    (h : runMetrics dev d ms = some ms') :
    ms'.map (fun e => e.1.labelNames) = ms.map (fun e => e.1.labelNames) := by
  refine forall2_proj _ _ _ ?_ (runMetrics_some dev d ms ms' h)
  rintro a b ⟨v, hv, rfl⟩
  rfl

theorem runMetrics_single (dev : String) (d : Json) (fam : NumFamily)
    (p : List String) (t : Transform) (ms' : List (NumFamily × List String × Transform))
    (h : runMetrics dev d [(fam, p, t)] = some ms') :
    ∃ v, (dig d p).bind t.apply = some v ∧ ms' = [(fam.addMetric [dev] v, p, t)] := by
  have hf := runMetrics_some dev d _ _ h
  cases hf with
  | cons hrel hnil =>
    obtain ⟨v, hv, hb⟩ := hrel
    cases hnil
    exact ⟨v, hv, by rw [hb]⟩

theorem runNvme_skel (dev : String) (log : Json)
    (ns ns' : List (NumFamily × String × Transform))
    (h : runNvme dev log ns = some ns') : nskel ns' = nskel ns := by
  unfold nskel
  refine forall2_proj _ _ _ ?_ (runNvme_some dev log ns ns' h)
  rintro a b ⟨v, hv, rfl⟩
  rfl

theorem runNvme_labelNames (dev : String) (log : Json)
    (ns ns' : List (NumFamily × String × Transform))
    (h : runNvme dev log ns = some ns') :
    ns'.map (fun e => e.1.labelNames) = ns.map (fun e => e.1.labelNames) := by
  refine forall2_proj _ _ _ ?_ (runNvme_some dev log ns ns' h)
  rintro a b ⟨v, hv, rfl⟩
  rfl

theorem runNvme_lengths (dev : String) (log : Json)
    (ns ns' : List (NumFamily × String × Transform))
    (h : runNvme dev log ns = some ns') :
    ns'.map (fun e => e.1.samples.length) =
      ns.map (fun e => e.1.samples.length + 1) := by
  refine forall2_proj _ _ _ ?_ (runNvme_some dev log ns ns' h)
  rintro a b ⟨v, hv, rfl⟩
  simp [NumFamily.addMetric]

theorem updateAttr_labelNames (ams : AttrTable) (q : ℚ) (dev : String) (v : ℚ) :
    (updateAttr ams q dev v).map (fun e => e.2.1.labelNames) =
      ams.map (fun e => e.2.1.labelNames) := by
  unfold updateAttr
  rw [List.map_map]
  apply List.map_congr_left
  intro e _
  by_cases hk : e.1 = q
  · simp [Function.comp, if_pos hk, NumFamily.addMetric]
  · simp [Function.comp, if_neg hk]

theorem runAttrRow_labelNames (dev : String) (ams : AttrTable) (row : Json)
    (ams' : AttrTable) (h : runAttrRow dev ams row = some ams') :
    ams'.map (fun e => e.2.1.labelNames) = ams.map (fun e => e.2.1.labelNames) := by
  unfold runAttrRow at h
  cases hid : getitem row "id" with
  | none => rw [hid] at h; exact absurd h (by simp)
  | some idj =>
    rw [hid] at h
    cases idj with
    | num q =>
      dsimp only at h
      cases hl : alookup ams q with
      | none =>
        rw [hl] at h
        injection h with h
        subst h
        rfl
      | some e₀ =>
        obtain ⟨m, path, t⟩ := e₀
        rw [hl] at h
        dsimp only at h
        cases hv : (dig row path).bind t.apply with
        | none => rw [hv] at h; dsimp only at h; exact absurd h (by simp)
        | some v =>
          rw [hv] at h
          dsimp only at h
          injection h with h
          subst h
          exact updateAttr_labelNames ams q dev v
    | null => injection h with h; subst h; rfl
    | bool b => injection h with h; subst h; rfl
    | str s2 => injection h with h; subst h; rfl
    | arr xs => exact absurd h (by simp)
    | obj kvs => exact absurd h (by simp)

theorem runAttrRows_labelNames (dev : String) :
    ∀ (rows : List Json) (ams ams' : AttrTable),
      runAttrRows dev ams rows = some ams' →
      ams'.map (fun e => e.2.1.labelNames) = ams.map (fun e => e.2.1.labelNames) := by
  intro rows
  induction rows with
  | nil =>
    intro ams ams' h
    injection h with h
    subst h
    rfl
  | cons row rest ih =>
    intro ams ams' h
    dsimp [runAttrRows] at h
    cases hr : runAttrRow dev ams row with
    | none => rw [hr] at h; exact absurd h (by simp)
    | some ams₁ =>
      rw [hr] at h
      dsimp only at h
      exact (ih ams₁ ams' h).trans (runAttrRow_labelNames dev ams row ams₁ hr)

theorem runMetrics_samples_from (dev : String) (d : Json) (P : List String → Prop)
    (hP : P [dev]) :
    ∀ (ms ms' : List (NumFamily × List String × Transform)),
      (∀ e ∈ ms, ∀ s ∈ e.1.samples, P s.1) →
      runMetrics dev d ms = some ms' →
      ∀ e ∈ ms', ∀ s ∈ e.1.samples, P s.1 := by
  intro ms
  induction ms with
  | nil =>
    intro ms' hgood h
    simp [runMetrics] at h
    subst h
    intro e he
    simp at he
  | cons e₀ rest ih =>
    obtain ⟨m, path, t⟩ := e₀
    intro ms' hgood h
    dsimp [runMetrics] at h
    cases hv : (dig d path).bind t.apply with
    | none => rw [hv] at h; dsimp only at h; exact absurd h (by simp)
    | some v =>
      rw [hv] at h
      dsimp only at h
      cases hr : runMetrics dev d rest with
      | none => rw [hr] at h; dsimp only at h; exact absurd h (by simp)
      | some rest' =>
        rw [hr] at h
        dsimp only at h
        injection h with h
        subst h
        intro e he s hs
        rcases List.mem_cons.mp he with rfl | hmem
        · dsimp [NumFamily.addMetric] at hs
          rcases List.mem_append.mp hs with hold | hnew
          · exact hgood (m, path, t) (List.mem_cons_self _ _) s hold
          · have : s = ([dev], v) := by simpa using hnew
            rw [this]
            exact hP
        · exact ih rest' (fun e' he' => hgood e' (List.mem_cons_of_mem _ he')) hr e hmem s hs

theorem runNvme_samples_from (dev : String) (log : Json) (P : List String → Prop)
    (hP : P [dev]) :
    ∀ (ns ns' : List (NumFamily × String × Transform)),
      (∀ e ∈ ns, ∀ s ∈ e.1.samples, P s.1) →
      runNvme dev log ns = some ns' →
      ∀ e ∈ ns', ∀ s ∈ e.1.samples, P s.1 := by
  intro ns
  induction ns with
  | nil =>
    intro ns' hgood h
    simp [runNvme] at h
    subst h
    intro e he
    simp at he
  | cons e₀ rest ih =>
    obtain ⟨m, key, t⟩ := e₀
    intro ns' hgood h
    dsimp [runNvme] at h
    cases hv : (getitem log key).bind t.apply with
    | none => rw [hv] at h; dsimp only at h; exact absurd h (by simp)
    | some v =>
      rw [hv] at h
      dsimp only at h
      cases hr : runNvme dev log rest with
      | none => rw [hr] at h; dsimp only at h; exact absurd h (by simp)
      | some rest' =>
        rw [hr] at h
        dsimp only at h
        injection h with h
        subst h
        intro e he s hs
        rcases List.mem_cons.mp he with rfl | hmem
        · dsimp [NumFamily.addMetric] at hs
          rcases List.mem_append.mp hs with hold | hnew
          · exact hgood (m, key, t) (List.mem_cons_self _ _) s hold
          · have : s = ([dev], v) := by simpa using hnew
            rw [this]
            exact hP
        · exact ih rest' (fun e' he' => hgood e' (List.mem_cons_of_mem _ he')) hr e hmem s hs

theorem updateAttr_samples_from (dev : String) (P : List String → Prop)
    (hP : P [dev]) (ams : AttrTable) (q : ℚ) (v : ℚ)
    (hgood : ∀ e ∈ ams, ∀ s ∈ e.2.1.samples, P s.1) :
    ∀ e ∈ updateAttr ams q dev v, ∀ s ∈ e.2.1.samples, P s.1 := by
  intro e he s hs
  unfold updateAttr at he
  obtain ⟨e₀, he₀, rfl⟩ := List.mem_map.mp he
  by_cases hk : e₀.1 = q
  · rw [if_pos hk] at hs
    dsimp [NumFamily.addMetric] at hs
    rcases List.mem_append.mp hs with hold | hnew
    · exact hgood e₀ he₀ s hold
    · have : s = ([dev], v) := by simpa using hnew
      rw [this]
      exact hP
  · rw [if_neg hk] at hs
    exact hgood e₀ he₀ s hs

theorem runAttrRow_samples_from (dev : String) (P : List String → Prop)
    (hP : P [dev]) (ams : AttrTable) (row : Json) (ams' : AttrTable)
    (hgood : ∀ e ∈ ams, ∀ s ∈ e.2.1.samples, P s.1)
    (h : runAttrRow dev ams row = some ams') :
    ∀ e ∈ ams', ∀ s ∈ e.2.1.samples, P s.1 := by
  unfold runAttrRow at h
  cases hid : getitem row "id" with
  | none => rw [hid] at h; exact absurd h (by simp)
  | some idj =>
    rw [hid] at h
    cases idj with
    | num q =>
      dsimp only at h
      cases hl : alookup ams q with
      | none =>
        rw [hl] at h
        injection h with h
        subst h
        exact hgood
      | some e₀ =>
        obtain ⟨m, path, t⟩ := e₀
        rw [hl] at h
        dsimp only at h
        cases hv : (dig row path).bind t.apply with
        | none => rw [hv] at h; dsimp only at h; exact absurd h (by simp)
        | some v =>
          rw [hv] at h
          dsimp only at h
          injection h with h
          subst h
          exact updateAttr_samples_from dev P hP ams q v hgood
    | null => injection h with h; subst h; exact hgood
    | bool b => injection h with h; subst h; exact hgood
    | str s2 => injection h with h; subst h; exact hgood
    | arr xs => exact absurd h (by simp)
    | obj kvs => exact absurd h (by simp)

theorem runAttrRows_samples_from (dev : String) (P : List String → Prop)
    (hP : P [dev]) :
    ∀ (rows : List Json) (ams ams' : AttrTable),
      (∀ e ∈ ams, ∀ s ∈ e.2.1.samples, P s.1) →
      runAttrRows dev ams rows = some ams' →
      ∀ e ∈ ams', ∀ s ∈ e.2.1.samples, P s.1 := by
  intro rows
  induction rows with
  | nil =>
    intro ams ams' hgood h
    injection h with h
    subst h
    exact hgood
  | cons row rest ih =>
    intro ams ams' hgood h
    dsimp [runAttrRows] at h
    cases hr : runAttrRow dev ams row with
    | none => rw [hr] at h; exact absurd h (by simp)
    | some ams₁ =>
      rw [hr] at h
      dsimp only at h
      exact ih ams₁ ams' (runAttrRow_samples_from dev P hP ams row ams₁ hgood hr) h

theorem get_device_info_device_key (d : Json) (info : List (String × Json))
    (h : get_device_info d = some info) :
    (slookup info "device").isSome = true := by
  obtain ⟨devObj, devName, devType, devProto, serial, wwn, fw,
    h1, h2, h3, h4, h5, h6, h7, hcase⟩ := get_device_info_inv d info h
  rcases hcase with ⟨hm, mf, h8, hinfo⟩ | ⟨hm, hinfo⟩ <;> subst hinfo <;> rfl

theorem get_device_metrics_skel (dev : String) (d : Json) (st st' : CollectState)
    (h : get_device_metrics dev d st = some st') :
    mskel st'.metrics = mskel st.metrics ∧
    askel st'.attrMetrics = askel st.attrMetrics ∧
    nskel st'.nvmeMetrics = nskel st.nvmeMetrics := by
  obtain ⟨info, hi, hdev, hm, hbr⟩ := get_device_metrics_some dev d st st' h
  refine ⟨runMetrics_skel dev d _ _ hm, ?_, ?_⟩
  · rcases hbr with ⟨_, ha, _⟩ | ⟨_, _, rows, _, hrr⟩
    · rw [ha]
    · exact runAttrRows_skel dev rows _ _ hrr
  · rcases hbr with ⟨_, _, log, _, hrn⟩ | ⟨_, hn, _⟩
    · exact runNvme_skel dev log _ _ hrn
    · rw [hn]

theorem get_device_metrics_good (dev : String) (d : Json) (st st' : CollectState)
    (P : List String → Prop) (hP : P [dev])
    (hm : ∀ e ∈ st.metrics, ∀ s ∈ e.1.samples, P s.1)
    (ha : ∀ e ∈ st.attrMetrics, ∀ s ∈ e.2.1.samples, P s.1)
    (hn : ∀ e ∈ st.nvmeMetrics, ∀ s ∈ e.1.samples, P s.1)
    (hinfo : ∀ s ∈ st.devInfo.samples, (slookup s.2.1 "device").isSome = true)
    (h : get_device_metrics dev d st = some st') :
    (∀ e ∈ st'.metrics, ∀ s ∈ e.1.samples, P s.1) ∧
    (∀ e ∈ st'.attrMetrics, ∀ s ∈ e.2.1.samples, P s.1) ∧
    (∀ e ∈ st'.nvmeMetrics, ∀ s ∈ e.1.samples, P s.1) ∧
    (∀ s ∈ st'.devInfo.samples, (slookup s.2.1 "device").isSome = true) := by
  obtain ⟨info, hi, hdev, hrm, hbr⟩ := get_device_metrics_some dev d st st' h
  refine ⟨runMetrics_samples_from dev d P hP st.metrics st'.metrics hm hrm, ?_, ?_, ?_⟩
  · rcases hbr with ⟨_, ha', _⟩ | ⟨_, _, rows, _, hrr⟩
    · rw [ha']; exact ha
    · exact runAttrRows_samples_from dev P hP rows _ _ ha hrr
  · rcases hbr with ⟨_, _, log, _, hrn⟩ | ⟨_, hn', _⟩
    · exact runNvme_samples_from dev log P hP _ _ hn hrn
    · rw [hn']; exact hn
  · rw [hdev]
    intro s hs
    dsimp [InfoFamily.addSample] at hs
    rcases List.mem_append.mp hs with hold | hnew
    · exact hinfo s hold
    · have : s = ("smartmon_device_info", info, 1) := by simpa using hnew
      rw [this]
      exact get_device_info_device_key d info hi

theorem get_device_metrics_devInfo_len (dev : String) (d : Json) (st st' : CollectState)
    (h : get_device_metrics dev d st = some st') :
    st'.devInfo.samples.length = st.devInfo.samples.length + 1 := by
  obtain ⟨info, hi, hdev, hrm, hbr⟩ := get_device_metrics_some dev d st st' h
  rw [hdev]
  simp [InfoFamily.addSample]

theorem collectDevices_trace (w : World) :
    ∀ (devs : List String) (st st' : CollectState) (tr : List (List String)),
      collectDevices w devs st = (some st', tr) →
      tr = devs.map (fun dv => ["--all", dv]) := by
  intro devs
  induction devs with
  | nil =>
    intro st st' tr h
    unfold collectDevices at h
    injection h with h1 h2
    exact h2.symm
  | cons dev rest ih =>
    intro st st' tr h
    unfold collectDevices at h
    cases hrun : smartctl w ["--all", dev] with
    | none => rw [hrun] at h; dsimp only at h; injection h with h1 h2; exact absurd h1 (by simp)
    | some d =>
      rw [hrun] at h
      dsimp only at h
      cases hg : get_device_metrics dev d st with
      | none => rw [hg] at h; dsimp only at h; injection h with h1 h2; exact absurd h1 (by simp)
      | some st₁ =>
        rw [hg] at h
        dsimp only at h
        cases hcd : collectDevices w rest st₁ with
        | mk r tr₁ =>
          rw [hcd] at h
          dsimp only at h
          injection h with h1 h2
          subst h1
          subst h2
          rw [List.map_cons]
          rw [ih st₁ st' tr₁ hcd]

theorem collectDevices_skel (w : World) :
    ∀ (devs : List String) (st st' : CollectState) (tr : List (List String)),
      collectDevices w devs st = (some st', tr) →
      mskel st'.metrics = mskel st.metrics ∧
      askel st'.attrMetrics = askel st.attrMetrics ∧
      nskel st'.nvmeMetrics = nskel st.nvmeMetrics := by
  intro devs
  induction devs with
  | nil =>
    intro st st' tr h
    unfold collectDevices at h
    injection h with h1 h2
    injection h1 with h1
    subst h1
    exact ⟨rfl, rfl, rfl⟩
  | cons dev rest ih =>
    intro st st' tr h
    unfold collectDevices at h
    cases hrun : smartctl w ["--all", dev] with
    | none => rw [hrun] at h; dsimp only at h; injection h with h1 h2; exact absurd h1 (by simp)
    | some d =>
      rw [hrun] at h
      dsimp only at h
      cases hg : get_device_metrics dev d st with
      | none => rw [hg] at h; dsimp only at h; injection h with h1 h2; exact absurd h1 (by simp)
      | some st₁ =>
        rw [hg] at h
        dsimp only at h
        cases hcd : collectDevices w rest st₁ with
        | mk r tr₁ =>
          rw [hcd] at h
          dsimp only at h
          injection h with h1 h2
          subst h1
          obtain ⟨m1, a1, n1⟩ := ih st₁ st' tr₁ hcd
          obtain ⟨m2, a2, n2⟩ := get_device_metrics_skel dev d st st₁ hg
          exact ⟨m1.trans m2, a1.trans a2, n1.trans n2⟩

theorem get_device_metrics_labelNames (dev : String) (d : Json) (st st' : CollectState)
    (h : get_device_metrics dev d st = some st') :
    st'.metrics.map (fun e => e.1.labelNames) = st.metrics.map (fun e => e.1.labelNames) ∧
    st'.attrMetrics.map (fun e => e.2.1.labelNames) =
      st.attrMetrics.map (fun e => e.2.1.labelNames) ∧
    st'.nvmeMetrics.map (fun e => e.1.labelNames) =
      st.nvmeMetrics.map (fun e => e.1.labelNames) := by
  obtain ⟨info, hi, hdev, hrm, hbr⟩ := get_device_metrics_some dev d st st' h
  refine ⟨runMetrics_labelNames dev d _ _ hrm, ?_, ?_⟩
  · rcases hbr with ⟨_, ha', _⟩ | ⟨_, _, rows, _, hrr⟩
    · rw [ha']
    · exact runAttrRows_labelNames dev rows _ _ hrr
  · rcases hbr with ⟨_, _, log, _, hrn⟩ | ⟨_, hn', _⟩
    · exact runNvme_labelNames dev log _ _ hrn
    · rw [hn']

theorem collectDevices_labelNames (w : World) :
    ∀ (devs : List String) (st st' : CollectState) (tr : List (List String)),
      collectDevices w devs st = (some st', tr) →
      st'.metrics.map (fun e => e.1.labelNames) = st.metrics.map (fun e => e.1.labelNames) ∧
      st'.attrMetrics.map (fun e => e.2.1.labelNames) =
        st.attrMetrics.map (fun e => e.2.1.labelNames) ∧
      st'.nvmeMetrics.map (fun e => e.1.labelNames) =
        st.nvmeMetrics.map (fun e => e.1.labelNames) := by
  intro devs
  induction devs with
  | nil =>
    intro st st' tr h
    unfold collectDevices at h
    injection h with h1 h2
    injection h1 with h1
    subst h1
    exact ⟨rfl, rfl, rfl⟩
  | cons dev rest ih =>
    intro st st' tr h
    unfold collectDevices at h
    cases hrun : smartctl w ["--all", dev] with
    | none => rw [hrun] at h; dsimp only at h; injection h with h1 h2; exact absurd h1 (by simp)
    | some d =>
      rw [hrun] at h
      dsimp only at h
      cases hg : get_device_metrics dev d st with
      | none => rw [hg] at h; dsimp only at h; injection h with h1 h2; exact absurd h1 (by simp)
      | some st₁ =>
        rw [hg] at h
        dsimp only at h
        cases hcd : collectDevices w rest st₁ with
        | mk r tr₁ =>
          rw [hcd] at h
          dsimp only at h
          injection h with h1 h2
          subst h1
          obtain ⟨m1, a1, n1⟩ := ih st₁ st' tr₁ hcd
          obtain ⟨m2, a2, n2⟩ := get_device_metrics_labelNames dev d st st₁ hg
          exact ⟨m1.trans m2, a1.trans a2, n1.trans n2⟩

theorem collectDevices_devInfo_len (w : World) :
    ∀ (devs : List String) (st st' : CollectState) (tr : List (List String)),
      collectDevices w devs st = (some st', tr) →
      st'.devInfo.samples.length = st.devInfo.samples.length + devs.length := by
  intro devs
  induction devs with
  | nil =>
    intro st st' tr h
    unfold collectDevices at h
    injection h with h1 h2
    injection h1 with h1
    subst h1
    rfl
  | cons dev rest ih =>
    intro st st' tr h
    unfold collectDevices at h
    cases hrun : smartctl w ["--all", dev] with
    | none => rw [hrun] at h; dsimp only at h; injection h with h1 h2; exact absurd h1 (by simp)
    | some d =>
      rw [hrun] at h
      dsimp only at h
      cases hg : get_device_metrics dev d st with
      | none => rw [hg] at h; dsimp only at h; injection h with h1 h2; exact absurd h1 (by simp)
      | some st₁ =>
        rw [hg] at h
        dsimp only at h
        cases hcd : collectDevices w rest st₁ with
        | mk r tr₁ =>
          rw [hcd] at h
          dsimp only at h
          injection h with h1 h2
          subst h1
          have l1 := ih st₁ st' tr₁ hcd
          have l2 := get_device_metrics_devInfo_len dev d st st₁ hg
          rw [l1, l2]
          simp [List.length_cons]
          omega

theorem collectDevices_healthy (w : World) :
    ∀ (devs : List String) (st st' : CollectState) (tr : List (List String))
      (fam : NumFamily) (p : List String) (t : Transform),
      collectDevices w devs st = (some st', tr) →
      st.metrics = [(fam, p, t)] →
      ∃ fam', st'.metrics = [(fam', p, t)] ∧ fam'.name = fam.name ∧
        fam'.samples.map Prod.fst =
          fam.samples.map Prod.fst ++ devs.map (fun dv => [dv]) := by
  intro devs
  induction devs with
  | nil =>
    intro st st' tr fam p t h hm
    unfold collectDevices at h
    injection h with h1 h2
    injection h1 with h1
    subst h1
    exact ⟨fam, hm, rfl, by simp⟩
  | cons dev rest ih =>
    intro st st' tr fam p t h hm
    unfold collectDevices at h
    cases hrun : smartctl w ["--all", dev] with
    | none => rw [hrun] at h; dsimp only at h; injection h with h1 h2; exact absurd h1 (by simp)
    | some d =>
      rw [hrun] at h
      dsimp only at h
      cases hg : get_device_metrics dev d st with
      | none => rw [hg] at h; dsimp only at h; injection h with h1 h2; exact absurd h1 (by simp)
      | some st₁ =>
        rw [hg] at h
        dsimp only at h
        cases hcd : collectDevices w rest st₁ with
        | mk r tr₁ =>
          rw [hcd] at h
          dsimp only at h
          injection h with h1 h2
          subst h1
          obtain ⟨info, hi, hdev, hrm, hbr⟩ := get_device_metrics_some dev d st st₁ hg
          rw [hm] at hrm
          obtain ⟨v, hv, hms1⟩ := runMetrics_single dev d fam p t st₁.metrics hrm
          obtain ⟨fam', hst', hname, hsamp⟩ :=
            ih st₁ st' tr₁ (fam.addMetric [dev] v) p t hcd hms1
          refine ⟨fam', hst', ?_, ?_⟩
          · rw [hname]
            rfl
          · rw [hsamp]
            dsimp [NumFamily.addMetric]
            simp

theorem collectDevices_good (w : World) (D : List String) :
    ∀ (devs : List String) (st st' : CollectState) (tr : List (List String)),
      (∀ dv ∈ devs, dv ∈ D) →
      (∀ e ∈ st.metrics, ∀ s ∈ e.1.samples, ∃ dv ∈ D, s.1 = [dv]) →
      (∀ e ∈ st.attrMetrics, ∀ s ∈ e.2.1.samples, ∃ dv ∈ D, s.1 = [dv]) →
      (∀ e ∈ st.nvmeMetrics, ∀ s ∈ e.1.samples, ∃ dv ∈ D, s.1 = [dv]) →
      (∀ s ∈ st.devInfo.samples, (slookup s.2.1 "device").isSome = true) →
      collectDevices w devs st = (some st', tr) →
      (∀ e ∈ st'.metrics, ∀ s ∈ e.1.samples, ∃ dv ∈ D, s.1 = [dv]) ∧
      (∀ e ∈ st'.attrMetrics, ∀ s ∈ e.2.1.samples, ∃ dv ∈ D, s.1 = [dv]) ∧
      (∀ e ∈ st'.nvmeMetrics, ∀ s ∈ e.1.samples, ∃ dv ∈ D, s.1 = [dv]) ∧
      (∀ s ∈ st'.devInfo.samples, (slookup s.2.1 "device").isSome = true) := by
  intro devs
  induction devs with
  | nil =>
    intro st st' tr _ hm ha hn hinfo h
    unfold collectDevices at h
    injection h with h1 h2
    injection h1 with h1
    subst h1
    exact ⟨hm, ha, hn, hinfo⟩
  | cons dev rest ih =>
    intro st st' tr hdevs hm ha hn hinfo h
    unfold collectDevices at h
    cases hrun : smartctl w ["--all", dev] with
    | none => rw [hrun] at h; dsimp only at h; injection h with h1 h2; exact absurd h1 (by simp)
    | some d =>
      rw [hrun] at h
      dsimp only at h
      cases hg : get_device_metrics dev d st with
      | none => rw [hg] at h; dsimp only at h; injection h with h1 h2; exact absurd h1 (by simp)
      | some st₁ =>
        rw [hg] at h
        dsimp only at h
        cases hcd : collectDevices w rest st₁ with
        | mk r tr₁ =>
          rw [hcd] at h
          dsimp only at h
          injection h with h1 h2
          subst h1
          have hPdev : ∃ dv ∈ D, [dev] = [dv] :=
            ⟨dev, hdevs dev (List.mem_cons_self _ _), rfl⟩
          obtain ⟨gm, ga, gn, gi⟩ := get_device_metrics_good dev d st st₁
            (fun ls => ∃ dv ∈ D, ls = [dv]) hPdev hm ha hn hinfo hg
          exact ih st₁ st' tr₁ (fun dv hdv => hdevs dv (List.mem_cons_of_mem _ hdv))
            gm ga gn gi hcd

theorem collectDevices_fail (w : World) :
    ∀ (devs : List String) (st : CollectState) (dev : String),
      dev ∈ devs →
      (smartctl w ["--all", dev] = none ∨
        (∃ d, smartctl w ["--all", dev] = some d ∧
          deviceOk (mskel st.metrics) (askel st.attrMetrics)
            (nskel st.nvmeMetrics) d = false)) →
      (collectDevices w devs st).1 = none := by
  intro devs
  induction devs with
  | nil =>
    intro st dev hmem
    simp at hmem
  | cons dev₀ rest ih =>
    intro st dev hmem hfail
    unfold collectDevices
    cases hrun : smartctl w ["--all", dev₀] with
    | none => rfl
    | some d₀ =>
      dsimp only
      cases hg : get_device_metrics dev₀ d₀ st with
      | none => rfl
      | some st₁ =>
        dsimp only
        cases hcd : collectDevices w rest st₁ with
        | mk r tr₁ =>
          dsimp only
          rcases List.mem_cons.mp hmem with rfl | hmem'
          · rcases hfail with hnone | ⟨d, hd, hbad⟩
            · rw [hrun] at hnone
              exact absurd hnone (by simp)
            · rw [hrun] at hd
              injection hd with hd
              subst hd
              have hok := get_device_metrics_isSome dev d₀ st
              rw [hg] at hok
              rw [hbad] at hok
              exact absurd hok (by simp)
          · obtain ⟨ms, as', ns⟩ := get_device_metrics_skel dev₀ d₀ st st₁ hg
            have hfail' : smartctl w ["--all", dev] = none ∨
                (∃ d, smartctl w ["--all", dev] = some d ∧
                  deviceOk (mskel st₁.metrics) (askel st₁.attrMetrics)
                    (nskel st₁.nvmeMetrics) d = false) := by
              rcases hfail with hnone | ⟨d, hd, hbad⟩
              · exact Or.inl hnone
              · exact Or.inr ⟨d, hd, by rw [ms, as', ns]; exact hbad⟩
            have := ih st₁ dev hmem' hfail'
            rw [hcd] at this
            exact this

theorem collect_some_inv (w : World) (out : CollectOutput)
    (h : (collect w).1 = some out) :
    ∃ vj vinfo sj devs stF tr,
      smartctl w ["--version"] = some vj ∧
      get_smartctl_version_info vj = some vinfo ∧
      smartctl w ["--scan-open"] = some sj ∧
      get_devices sj = some devs ∧
      collectDevices w devs initState = (some stF, tr) ∧
      out = { versionInfo := mkInfoFamilyWith "smartmon" "smartmontools information" vinfo,
              devInfo := stF.devInfo,
              families := stF.metrics.map (fun e => e.1)
                ++ stF.attrMetrics.map (fun e => e.2.1)
                ++ stF.nvmeMetrics.map (fun e => e.1) } ∧
      (collect w).2 = [["--version"], ["--scan-open"]] ++ tr := by
  unfold collect at h ⊢
  cases hv : smartctl w ["--version"] with
  | none =>
    try rw [hv] at h
    dsimp only at h
    exact absurd h (by simp)
  | some vj =>
  try rw [hv] at h
  try dsimp only at h
  cases hvi : get_smartctl_version_info vj with
  | none =>
    try rw [hvi] at h
    dsimp only at h
    exact absurd h (by simp)
  | some vinfo =>
  try rw [hvi] at h
  try dsimp only at h
  cases hs : smartctl w ["--scan-open"] with
  | none =>
    try rw [hs] at h
    dsimp only at h
    exact absurd h (by simp)
  | some sj =>
  try rw [hs] at h
  try dsimp only at h
  cases hd : get_devices sj with
  | none =>
    try rw [hd] at h
    dsimp only at h
    exact absurd h (by simp)
  | some devs =>
  try rw [hd] at h
  try dsimp only at h
  cases hcd : collectDevices w devs initState with
  | mk r tr =>
  cases r with
  | none =>
    try rw [hcd] at h
    dsimp only at h
    exact absurd h (by simp)
  | some stF =>
  try rw [hcd] at h
  dsimp only at h
  injection h with h
  dsimp only
  try rw [hvi]
  dsimp only
  try rw [hd]
  dsimp only
  try rw [hcd]
  dsimp only
  exact ⟨vj, vinfo, sj, devs, stF, tr, rfl, hvi, rfl, hd, hcd, h.symm, rfl⟩

/-- Claim C1: on every scrape, `collect` enumerates the storage devices with
one scan-mode invocation of the external tool and then invokes the tool
exactly once per enumerated device, with `--all` and the device name, in
enumeration order (the invocation trace is exactly the version call, the
scan call, then one `--all` call per device). Samples are emitted for every
enumerated device in enumeration order: the device-info family carries one
sample per device, and the healthy-gauge family of the mapping table carries
one `[dev]`-labelled sample per device, in order. -/
theorem collect_enumerates_then_queries_each_device (w : World) (out : CollectOutput)
    (h : (collect w).1 = some out) :
    ∃ devs, enumDevices w = some devs ∧
      (collect w).2 = [["--version"], ["--scan-open"]] ++
        devs.map (fun dv => ["--all", dv]) ∧
      out.devInfo.samples.length = devs.length ∧
      ∃ hf rest, out.families = hf :: rest ∧
        hf.name = "smartmon_smart_healthy" ∧
        hf.samples.map Prod.fst = devs.map (fun dv => [dv]) := by
  obtain ⟨vj, vinfo, sj, devs, stF, tr, hv, hvi, hs, hd, hcd, hout, htr⟩ :=
    collect_some_inv w out h
  have htr' := collectDevices_trace w devs initState stF tr hcd
  have hlen := collectDevices_devInfo_len w devs initState stF tr hcd
  have hm : initState.metrics =
      [({ name := "smartmon_smart_healthy", kind := .gauge,
          help := "Whether the device is healthy according to S.M.A.R.T.",
          labelNames := ["device"], samples := [] }, ["smart_status", "passed"],
        Transform.int)] := rfl
  obtain ⟨fam', hstm, hname, hsamp⟩ :=
    collectDevices_healthy w devs initState stF tr _ _ _ hcd hm
  refine ⟨devs, ?_, ?_, ?_, ?_⟩
  · show (smartctl w ["--scan-open"]).bind get_devices = some devs
    rw [hs]
    simpa using hd
  · rw [htr, htr']
  · rw [hout]
    rw [hlen]
    simp [initState]
  · refine ⟨fam', stF.attrMetrics.map (fun e => e.2.1)
      ++ stF.nvmeMetrics.map (fun e => e.1), ?_, ?_, ?_⟩
    · rw [hout]
      dsimp only
      rw [hstm]
      simp
    · rw [hname]
    · rw [hsamp]
      simp

theorem collect_enumerates_then_queries_each_device_w :
    ∃ devs, enumDevices w0 = some devs ∧
      (collect w0).2 = [["--version"], ["--scan-open"]] ++
        devs.map (fun dv => ["--all", dv]) ∧
      collectOut0.devInfo.samples.length = devs.length ∧
      ∃ hf rest, collectOut0.families = hf :: rest ∧
        hf.name = "smartmon_smart_healthy" ∧
        hf.samples.map Prod.fst = devs.map (fun dv => [dv]) :=
  collect_enumerates_then_queries_each_device w0 collectOut0
    (by with_unfolding_all rfl)

/-- Claim C2: any parse or subprocess failure aborts the whole scrape as an
uncaught fault: if the version output fails to parse, if the scan output
fails to parse, or if any enumerated device's `--all` output fails to parse
or lacks a required field (so that processing that device raises, which is
what `deviceOk = false` characterizes), then `collect` yields nothing at
all — no device is retried and no partial result for the already-processed
devices is returned. -/
theorem failures_abort_whole_scrape (w : World) :
    (smartctl w ["--version"] = none → (collect w).1 = none) ∧
    (smartctl w ["--scan-open"] = none → (collect w).1 = none) ∧
    (∀ devs dev, enumDevices w = some devs → dev ∈ devs →
      (smartctl w ["--all", dev] = none ∨
        (∃ d, smartctl w ["--all", dev] = some d ∧
          deviceOk (mskel gen_metrics) (askel gen_attr_metrics)
            (nskel gen_nvme_metrics) d = false)) →
      (collect w).1 = none) := by
  refine ⟨?_, ?_, ?_⟩
  · intro hva
    unfold collect
    rw [hva]
  · intro hsn
    unfold collect
    cases hv : smartctl w ["--version"] with
    | none => rfl
    | some vj =>
      dsimp only
      cases hvi : get_smartctl_version_info vj with
      | none => rfl
      | some vinfo =>
        dsimp only
        rw [hsn]
  · intro devs dev henum hmem hfail
    unfold enumDevices at henum
    cases hs : smartctl w ["--scan-open"] with
    | none =>
      rw [hs] at henum
      simp at henum
    | some sj =>
      rw [hs] at henum
      simp only [Option.some_bind] at henum
      unfold collect
      cases hv : smartctl w ["--version"] with
      | none => rfl
      | some vj =>
        dsimp only
        cases hvi : get_smartctl_version_info vj with
        | none => rfl
        | some vinfo =>
          dsimp only
          rw [hs]
          dsimp only
          rw [henum]
          dsimp only
          have hfail' := collectDevices_fail w devs initState dev hmem hfail
          cases hcd : collectDevices w devs initState with
          | mk r tr =>
            rw [hcd] at hfail'
            dsimp only at hfail'
            subst hfail'
            rfl

theorem failures_abort_whole_scrape_w :
    enumDevices wFail = some ["/dev/sda"] ∧
    smartctl wFail ["--all", "/dev/sda"] = none ∧
    (collect wFail).1 = none := by
  refine ⟨by with_unfolding_all rfl, by with_unfolding_all rfl, ?_⟩
  exact (failures_abort_whole_scrape wFail).2.2 ["/dev/sda"] "/dev/sda"
    (by with_unfolding_all rfl) (by simp)
    (Or.inl (by with_unfolding_all rfl))

/-- Claim C3: samples are recomputed fresh on every scrape. Every family
built by a collection pass starts with an empty sample list (the generated
mapping tables and the device-info family of the fresh local state hold no
samples), a `SmartmonCollector` instance carries no state that could
influence a scrape, and the result of the n-th scrape in any sequence of
scrapes is a function of that scrape's environment alone. -/
theorem scrapes_are_fresh_and_stateless :
    gen_metrics.map (fun e => e.1.samples) = [[]] ∧
    gen_attr_metrics.map (fun e => e.2.1.samples) = List.replicate 13 [] ∧
    gen_nvme_metrics.map (fun e => e.1.samples) = List.replicate 14 [] ∧
    initState.devInfo.samples = [] ∧
    (∀ c₁ c₂ : SmartmonCollector, ∀ w : World,
      SmartmonCollector.scrape c₁ w = SmartmonCollector.scrape c₂ w) ∧
    (∀ (ws : List World) (n : ℕ),
      (scrapes ws).get? n = (ws.get? n).map (fun w => (collect w).1)) := by
  refine ⟨rfl, rfl, rfl, rfl, fun c₁ c₂ w => rfl, fun ws n => ?_⟩
  unfold scrapes
  rw [List.get?_map]

/-- Claim C7: the field mapping tables are static values of the program (the
generators take no input, so every call returns the same table), and a
collection pass is a deterministic function of the external tool's outputs:
two environments returning identical output for every invocation yield
identical collect results, traces included. -/
theorem mapping_tables_static_and_deterministic (w₁ w₂ : World)
    (hsame : ∀ flags, w₁.run flags = w₂.run flags) :
    collect w₁ = collect w₂ ∧
    gen_metrics = gen_metrics ∧
    gen_attr_metrics = gen_attr_metrics ∧
    gen_nvme_metrics = gen_nvme_metrics := by
  have hw : w₁ = w₂ := by
    cases w₁
    cases w₂
    simp only [World.mk.injEq]
    exact funext hsame
  exact ⟨by rw [hw], rfl, rfl, rfl⟩

theorem mapping_tables_static_and_deterministic_w :
    (∀ flags, w0.run flags = w0.run flags) ∧ collect w0 = collect w0 :=
  ⟨fun _ => rfl, (mapping_tables_static_and_deterministic w0 w0 (fun _ => rfl)).1⟩

/-- Claim C6: the value of the `smartmon_smart_healthy` gauge sample for a
device report is the integer conversion of the report's
`smart_status.passed` field: 1 when the field is true, 0 when it is false.
Stated for a pass whose general-metrics table is the freshly generated one,
as in every `collect` call. -/
theorem healthy_gauge_is_int_of_passed (dev : String) (d : Json)
    (st st' : CollectState) (b : Bool)
    (hm : st.metrics = gen_metrics)
    (h : get_device_metrics dev d st = some st')
    (hb : dig d ["smart_status", "passed"] = some (.bool b)) :
    st'.metrics.map (fun e => (e.1.name, e.1.samples)) =
      [("smartmon_smart_healthy", [([dev], (cond b 1 0 : ℚ))])] := by
  obtain ⟨info, hi, hdev, hrm, hbr⟩ := get_device_metrics_some dev d st st' h
  rw [hm] at hrm
  rw [show gen_metrics =
    [({ name := "smartmon_smart_healthy", kind := .gauge,
        help := "Whether the device is healthy according to S.M.A.R.T.",
        labelNames := ["device"], samples := [] }, ["smart_status", "passed"],
      Transform.int)] from rfl] at hrm
  obtain ⟨v, hv, hms⟩ := runMetrics_single dev d _ _ _ _ hrm
  rw [hb] at hv
  simp only [Option.some_bind, Transform.apply, pyInt] at hv
  injection hv with hv
  subst hv
  rw [hms]
  simp [NumFamily.addMetric]

theorem healthy_gauge_is_int_of_passed_w :
    get_device_metrics "/dev/sda" ataReport initState = some devSt1 ∧
    dig ataReport ["smart_status", "passed"] = some (.bool false) ∧
    devSt1.metrics.map (fun e => (e.1.name, e.1.samples)) =
      [("smartmon_smart_healthy", [(["/dev/sda"], (cond false 1 0 : ℚ))])] := by
  have h : get_device_metrics "/dev/sda" ataReport initState = some devSt1 := by
    with_unfolding_all rfl
  exact ⟨h, rfl,
    healthy_gauge_is_int_of_passed "/dev/sda" ataReport initState devSt1 false
      rfl h rfl⟩

/-- Claim C8: the ATA mapping covers exactly the ids
4, 5, 9, 10, 12, 187, 188, 190, 193, 194, 196, 197, 198 and the NVMe
mapping has 14 metrics. For a successfully processed report: when it has
the NVMe health-log key, every NVMe family gains exactly one sample and no
ATA attribute family changes; otherwise no NVMe family changes and each
ATA attribute family gains one sample per table row carrying its id —
rows with any other id contribute to no family. -/
theorem nvme_vs_ata_sample_counts (dev : String) (d : Json) (st st' : CollectState)
    (h : get_device_metrics dev d st = some st') :
    gen_attr_metrics.map (fun e => e.1) =
      [4, 5, 9, 10, 12, 187, 188, 190, 193, 194, 196, 197, 198] ∧
    gen_nvme_metrics.length = 14 ∧
    (hasKey d "nvme_smart_health_information_log" = true →
      st'.nvmeMetrics.map (fun e => e.1.samples.length) =
        st.nvmeMetrics.map (fun e => e.1.samples.length + 1) ∧
      st'.attrMetrics = st.attrMetrics) ∧
    (hasKey d "nvme_smart_health_information_log" = false →
      st'.nvmeMetrics = st.nvmeMetrics ∧
      ∃ rows, ((getitem d "ata_smart_attributes").bind
          (fun a => getitem a "table")).bind asArr = some rows ∧
        st'.attrMetrics.map (fun e => (e.1, e.2.1.samples.length)) =
          st.attrMetrics.map (fun e => (e.1, e.2.1.samples.length + idCount rows e.1))) := by
  obtain ⟨info, hi, hdev, hrm, hbr⟩ := get_device_metrics_some dev d st st' h
  refine ⟨rfl, rfl, ?_, ?_⟩
  · intro hn
    rcases hbr with ⟨_, ha, log, hlog, hrn⟩ | ⟨hfalse, _, _⟩
    · exact ⟨runNvme_lengths dev log _ _ hrn, ha⟩
    · rw [hn] at hfalse
      exact absurd hfalse (by simp)
  · intro hn
    rcases hbr with ⟨htrue, _, _⟩ | ⟨_, hnv, rows, hta, hrr⟩
    · rw [hn] at htrue
      exact absurd htrue (by simp)
    · exact ⟨hnv, rows, hta, runAttrRows_counts dev rows _ _ hrr⟩

theorem nvme_vs_ata_sample_counts_w :
    get_device_metrics "/dev/nvme0" nvmeReport initState = some devSt2 ∧
    hasKey nvmeReport "nvme_smart_health_information_log" = true ∧
    devSt2.nvmeMetrics.map (fun e => e.1.samples.length) =
      initState.nvmeMetrics.map (fun e => e.1.samples.length + 1) ∧
    devSt2.attrMetrics = initState.attrMetrics := by
  have h : get_device_metrics "/dev/nvme0" nvmeReport initState = some devSt2 := by
    with_unfolding_all rfl
  obtain ⟨-, -, hnvme, -⟩ :=
    nvme_vs_ata_sample_counts "/dev/nvme0" nvmeReport initState devSt2 h
  obtain ⟨h1, h2⟩ := hnvme rfl
  exact ⟨h, rfl, h1, h2⟩

theorem empty_samples_of_map_replicate {α : Type} (l : List α)
    (f : α → List (List String × ℚ))
    (hmap : l.map f = List.replicate l.length []) :
    ∀ e ∈ l, f e = [] := by
  intro e he
  have hmem : f e ∈ l.map f := List.mem_map_of_mem f he
  rw [hmap] at hmem
  exact List.eq_of_mem_replicate hmem

/-- Claim C4: every metric sample of a collection pass carries the device
name. Every numeric family yielded by a successful `collect` has label set
`["device"]` and each of its samples has a label list `[dev]` for one of the
enumerated devices; every device-info sample's label dictionary contains the
`device` key; and every metric definition of the mapping tables has
`["device"]` as its label set. -/
theorem samples_carry_device_label (w : World) (out : CollectOutput)
    (h : (collect w).1 = some out) :
    ∃ devs, enumDevices w = some devs ∧
      (∀ fam ∈ out.families, fam.labelNames = ["device"]) ∧
      (∀ fam ∈ out.families, ∀ s ∈ fam.samples, ∃ dv ∈ devs, s.1 = [dv]) ∧
      (∀ s ∈ out.devInfo.samples, (slookup s.2.1 "device").isSome = true) ∧
      gen_metrics.map (fun e => e.1.labelNames) = [["device"]] ∧
      gen_attr_metrics.map (fun e => e.2.1.labelNames) =
        List.replicate 13 ["device"] ∧
      gen_nvme_metrics.map (fun e => e.1.labelNames) =
        List.replicate 14 ["device"] := by
  obtain ⟨vj, vinfo, sj, devs, stF, tr, hv, hvi, hs, hd, hcd, hout, htr⟩ :=
    collect_some_inv w out h
  obtain ⟨lm, la, ln⟩ := collectDevices_labelNames w devs initState stF tr hcd
  have lm0 : initState.metrics.map (fun e => e.1.labelNames) = [["device"]] := rfl
  have la0 : initState.attrMetrics.map (fun e => e.2.1.labelNames) =
      List.replicate 13 ["device"] := rfl
  have ln0 : initState.nvmeMetrics.map (fun e => e.1.labelNames) =
      List.replicate 14 ["device"] := rfl
  have em : ∀ e ∈ initState.metrics, ∀ s ∈ e.1.samples, ∃ dv ∈ devs, s.1 = [dv] := by
    intro e he s hs'
    rw [empty_samples_of_map_replicate initState.metrics (fun e => e.1.samples)
      rfl e he] at hs'
    simp at hs'
  have ea : ∀ e ∈ initState.attrMetrics, ∀ s ∈ e.2.1.samples,
      ∃ dv ∈ devs, s.1 = [dv] := by
    intro e he s hs'
    rw [empty_samples_of_map_replicate initState.attrMetrics (fun e => e.2.1.samples)
      rfl e he] at hs'
    simp at hs'
  have en : ∀ e ∈ initState.nvmeMetrics, ∀ s ∈ e.1.samples,
      ∃ dv ∈ devs, s.1 = [dv] := by
    intro e he s hs'
    rw [empty_samples_of_map_replicate initState.nvmeMetrics (fun e => e.1.samples)
      rfl e he] at hs'
    simp at hs'
  have ei : ∀ s ∈ initState.devInfo.samples,
      (slookup s.2.1 "device").isSome = true := by
    intro s hs'
    rw [show initState.devInfo.samples = [] from rfl] at hs'
    simp at hs'
  obtain ⟨gm, ga, gn, gi⟩ := collectDevices_good w devs devs initState stF tr
    (fun dv hdv => hdv) em ea en ei hcd
  refine ⟨devs, ?_, ?_, ?_, ?_, rfl, rfl, rfl⟩
  · show (smartctl w ["--scan-open"]).bind get_devices = some devs
    rw [hs]
    simpa using hd
  · intro fam hfam
    rw [hout] at hfam
    dsimp only at hfam
    rcases List.mem_append.mp hfam with hab | hc
    · rcases List.mem_append.mp hab with ha | hb
      · obtain ⟨e, he, rfl⟩ := List.mem_map.mp ha
        have hmem : e.1.labelNames ∈ stF.metrics.map (fun e => e.1.labelNames) :=
          List.mem_map_of_mem _ he
        rw [lm, lm0] at hmem
        simpa using hmem
      · obtain ⟨e, he, rfl⟩ := List.mem_map.mp hb
        have hmem : e.2.1.labelNames ∈
            stF.attrMetrics.map (fun e => e.2.1.labelNames) :=
          List.mem_map_of_mem _ he
        rw [la, la0] at hmem
        exact List.eq_of_mem_replicate hmem
    · obtain ⟨e, he, rfl⟩ := List.mem_map.mp hc
      have hmem : e.1.labelNames ∈ stF.nvmeMetrics.map (fun e => e.1.labelNames) :=
        List.mem_map_of_mem _ he
      rw [ln, ln0] at hmem
      exact List.eq_of_mem_replicate hmem
  · intro fam hfam s hsmem
    rw [hout] at hfam
    dsimp only at hfam
    rcases List.mem_append.mp hfam with hab | hc
    · rcases List.mem_append.mp hab with ha | hb
      · obtain ⟨e, he, rfl⟩ := List.mem_map.mp ha
        exact gm e he s hsmem
      · obtain ⟨e, he, rfl⟩ := List.mem_map.mp hb
        exact ga e he s hsmem
    · obtain ⟨e, he, rfl⟩ := List.mem_map.mp hc
      exact gn e he s hsmem
  · rw [hout]
    exact gi

theorem samples_carry_device_label_w :
    ∃ devs, enumDevices w0 = some devs ∧
      (∀ fam ∈ collectOut0.families, fam.labelNames = ["device"]) ∧
      (∀ fam ∈ collectOut0.families, ∀ s ∈ fam.samples, ∃ dv ∈ devs, s.1 = [dv]) ∧
      (∀ s ∈ collectOut0.devInfo.samples, (slookup s.2.1 "device").isSome = true) ∧
      gen_metrics.map (fun e => e.1.labelNames) = [["device"]] ∧
      gen_attr_metrics.map (fun e => e.2.1.labelNames) =
        List.replicate 13 ["device"] ∧
      gen_nvme_metrics.map (fun e => e.1.labelNames) =
        List.replicate 14 ["device"] :=
  samples_carry_device_label w0 collectOut0 (by with_unfolding_all rfl)
